import Mathlib

/-!
Verification of the defender attention/impact dashboard pipeline.

The repository has two near-duplicate entry points:
  * `app.py`              — `build_base_dataframe` plus a sidebar-driven
                            filter/sort block producing `df_view`;
  * `player_attention_table_streamlit.py` — `create_player_attention_table`,
    the same pipeline plus a `total_interventions` column, search/team
    filters, pagination and a median-based 2x2 category classifier.

Tables are embedded as lists of typed rows.  Floats are embedded as `ℚ`
(the pipeline only adds, divides and compares, so rationals are exact),
join keys as a `Key` sum of numeric and string values with the
`astype(str)` casts modelled explicitly, and nullable columns as
`Option`.  Pandas left merges keep every left row in order, pairing it
with each matching right row in right order, or with nulls when nothing
matches; `groupby` with the default `sort=True` produces one output row
per distinct key in sorted key order.
-/

namespace DAD

/-- Sum type for a raw join-key column: the upstream CSV columns can hold
numbers or strings; the pipeline casts them with `astype(str)`. -/
inductive Key where
  | kNum (n : ℤ)
  | kStr (s : String)
deriving DecidableEq, Repr

instance : Inhabited Key := ⟨.kNum 0⟩

/-- Python `str(...)` applied to a key value, as `astype(str)` does. -/
def Key.toStr : Key → String
  | .kNum n => toString n
  | .kStr s => s

/-- Python substring test `pat in s` on character lists. -/
def isPreOf : List Char → List Char → Bool
  | [], _ => true
  | _ :: _, [] => false
  | p :: ps, c :: cs => p == c && isPreOf ps cs

/-- Python substring containment `pat in s`. -/
def subStr (pat s : String) : Bool :=
  s.toList.tails.any (isPreOf pat.toList)

/-- Insert into a list, placing `a` before the first element `b` with
`le a b`. -/
def insertLe (le : α → α → Bool) (a : α) : List α → List α
  | [] => [a]
  | b :: l => if le a b then a :: b :: l else b :: insertLe le a l

/-- Insertion sort by a boolean comparison. -/
def insSortLe (le : α → α → Bool) : List α → List α
  | [] => []
  | a :: l => insertLe le a (insSortLe le l)

/-- First-occurrence deduplication (auxiliary, with a `seen` accumulator). -/
def uniqAux [DecidableEq α] (seen : List α) : List α → List α
  | [] => []
  | k :: r => if k ∈ seen then uniqAux seen r else k :: uniqAux (k :: seen) r

/-- Distinct values of a list in first-occurrence order. -/
def uniq [DecidableEq α] (l : List α) : List α := uniqAux [] l

/-- Arithmetic mean of a list of rationals (pandas `mean`; only applied to
nonempty groups in the pipeline). -/
def mean (l : List ℚ) : ℚ := l.sum / l.length

/-- Pandas `Series.median`: sort, take the middle element (odd length) or
the mean of the two middle elements (even length).  The `0` for the empty
list is junk, `median` is only consulted when the table is nonempty. -/
def median (l : List ℚ) : ℚ :=
  let s := insSortLe (fun a b => decide (a ≤ b)) l
  let n := s.length
  if n = 0 then 0
  else if n % 2 = 1 then s.getD (n / 2) 0
  else (s.getD (n / 2 - 1) 0 + s.getD (n / 2) 0) / 2

/-! ### Input tables

Only the columns the pipeline reads are modelled; unused columns
(`total_attention`, `max_attention`, `std_attention`, `median_attention`,
`frame_count`, `game_id`, `play_id`, the prediction columns, and the
remaining `nfl_players` / `nfl_teams` columns outside the explicit
column selections in the two merges) are carried by neither variant's
logic and are omitted. -/

/-- One row of `defender_attention_all.csv` (`df`). -/
structure AttRow where
  nfl_id : Key
  avg_attention : ℚ
  high_attention_pct : ℚ
  play_count : ℕ
deriving DecidableEq, Repr

/-- One row of the player-metadata table (`nfl_players`), restricted to the
columns selected by the merge. -/
structure PlyRow where
  nfl_id : Key
  display_name : Option String
  position : Option String
  latest_team : Option String
  headshot : Option String
deriving DecidableEq, Repr

/-- One row of the team-metadata table (`nfl_teams`), restricted to the
columns selected by the merges (`app.py` selects only the first three;
the extra two ride along untouched). -/
structure TeamRow where
  team_abbr : Key
  team_color : Option String
  team_color2 : Option String
  team_logo_squared : Option String
  team_wordmark : Option String
deriving DecidableEq, Repr

/-- One row of `intervention_detailed_results.csv` (`df_detailed_results`). -/
structure ItvRow where
  defender_nfl_id : Key
  intervention_type : String
  impact_score : ℚ
deriving DecidableEq, Repr

/-! ### Key casts (`astype(str)` lines) -/

/-- `df["nfl_id"] = df["nfl_id"].astype(str)`. -/
def castAtt (r : AttRow) : AttRow := { r with nfl_id := .kStr r.nfl_id.toStr }

/-- `nfl_players["nfl_id"] = nfl_players["nfl_id"].astype(str)`. -/
def castPly (r : PlyRow) : PlyRow := { r with nfl_id := .kStr r.nfl_id.toStr }

/-- `nfl_teams["team_abbr"] = nfl_teams["team_abbr"].astype(str)`. -/
def castTeam (r : TeamRow) : TeamRow := { r with team_abbr := .kStr r.team_abbr.toStr }

/-- `df_detailed_results["defender_nfl_id"] = ....astype(str)`. -/
def castItv (r : ItvRow) : ItvRow := { r with defender_nfl_id := .kStr r.defender_nfl_id.toStr }

/-! ### Left merges -/

/-- Pandas `left.merge(right, how="left")`: every left row in order; a left
row with matching right rows yields one output row per match (in right
order), and an unmatched left row yields a single output row with null
right-hand fields. -/
def leftMerge (match? : α → β → Bool) (unmatched : α → γ) (comb : α → β → γ)
    (l : List α) (r : List β) : List γ :=
  l.flatMap fun a =>
    let ms := r.filter (match? a)
    if ms.isEmpty then [unmatched a] else ms.map (comb a)

/-- Attention row joined with the selected player-metadata columns. -/
structure Row1 where
  nfl_id : Key
  avg_attention : ℚ
  high_attention_pct : ℚ
  play_count : ℕ
  display_name : Option String
  position : Option String
  latest_team : Option String
  headshot : Option String
deriving DecidableEq, Repr

/-- `df.merge(nfl_players[[...]], on="nfl_id", how="left")`. -/
def mergePlayers (df : List AttRow) (ps : List PlyRow) : List Row1 :=
  leftMerge (fun a p => p.nfl_id == a.nfl_id)
    (fun a => ⟨a.nfl_id, a.avg_attention, a.high_attention_pct, a.play_count,
      none, none, none, none⟩)
    (fun a p => ⟨a.nfl_id, a.avg_attention, a.high_attention_pct, a.play_count,
      p.display_name, p.position, p.latest_team, p.headshot⟩)
    df ps

/-- `Row1` joined with the selected team-metadata columns.  The merge uses
`left_on="latest_team", right_on="team_abbr"`, so both key columns are kept
and `team_abbr` is null on unmatched rows. -/
structure Row2 where
  nfl_id : Key
  avg_attention : ℚ
  high_attention_pct : ℚ
  play_count : ℕ
  display_name : Option String
  position : Option String
  latest_team : Option String
  headshot : Option String
  team_abbr : Option Key
  team_color : Option String
  team_color2 : Option String
  team_logo_squared : Option String
  team_wordmark : Option String
deriving DecidableEq, Repr

/-- `.merge(nfl_teams[[...]], left_on="latest_team", right_on="team_abbr",
how="left")`.  A null `latest_team` matches nothing (the cast team keys are
all strings, so there is no null key on the right). -/
def mergeTeams (l : List Row1) (ts : List TeamRow) : List Row2 :=
  leftMerge (fun (a : Row1) (t : TeamRow) => a.latest_team == some t.team_abbr.toStr)
    (fun a => ⟨a.nfl_id, a.avg_attention, a.high_attention_pct, a.play_count,
      a.display_name, a.position, a.latest_team, a.headshot,
      none, none, none, none, none⟩)
    (fun a t => ⟨a.nfl_id, a.avg_attention, a.high_attention_pct, a.play_count,
      a.display_name, a.position, a.latest_team, a.headshot,
      some t.team_abbr, t.team_color, t.team_color2, t.team_logo_squared, t.team_wordmark⟩)
    l ts

/-! ### Position grouping -/

/-- `get_position_group` (identical in both files): null position maps to
`"Other"`; otherwise the groups are tried in dict order LB, CB, S, each by
substring membership of any of its tokens. -/
def get_position_group (pos : Option String) : String :=
  match pos with
  | none => "Other"
  | some p =>
    if ["LB", "ILB", "MLB", "OLB"].any (fun v => subStr v p) then "LB"
    else if ["CB", "DB"].any (fun v => subStr v p) then "CB"
    else if ["S", "SAF"].any (fun v => subStr v p) then "S"
    else "Other"

/-- `Row2` plus the `position_group` column. -/
structure Row3 where
  nfl_id : Key
  avg_attention : ℚ
  high_attention_pct : ℚ
  play_count : ℕ
  display_name : Option String
  position : Option String
  latest_team : Option String
  headshot : Option String
  team_abbr : Option Key
  team_color : Option String
  team_color2 : Option String
  team_logo_squared : Option String
  team_wordmark : Option String
  position_group : String
deriving DecidableEq, Repr

/-- `df["position_group"] = df["position"].apply(get_position_group)`. -/
def addPositionGroup (r : Row2) : Row3 :=
  ⟨r.nfl_id, r.avg_attention, r.high_attention_pct, r.play_count,
    r.display_name, r.position, r.latest_team, r.headshot,
    r.team_abbr, r.team_color, r.team_color2, r.team_logo_squared, r.team_wordmark,
    get_position_group r.position⟩

/-! ### Removal-intervention aggregation -/

/-- `df_detailed_results[df_detailed_results["intervention_type"] == "removal"]`
— note: an exact, case-sensitive string comparison. -/
def removalFilter (itv : List ItvRow) : List ItvRow :=
  itv.filter (fun r => r.intervention_type == "removal")

/-- Distinct defender keys in sorted order (pandas `groupby` with the
default `sort=True` emits one row per distinct key, keys sorted; the keys
have been cast to strings). -/
def groupKeys (itv : List ItvRow) : List Key :=
  insSortLe (fun a b => decide (a.toStr ≤ b.toStr)) (uniq (itv.map (·.defender_nfl_id)))

/-- One row of `removal_stats`: group size and mean impact score. -/
structure StatRow where
  defender_nfl_id : Key
  intervention_removal : ℕ
  impact_removal : ℚ
deriving DecidableEq, Repr

/-- `df_detailed_results.groupby("defender_nfl_id").agg(intervention_removal=
("defender_nfl_id", "size"), impact_removal=("impact_score", "mean"))`. -/
def removalStats (itv : List ItvRow) : List StatRow :=
  (groupKeys itv).map fun k =>
    let g := itv.filter (fun r => r.defender_nfl_id == k)
    ⟨k, g.length, mean (g.map (·.impact_score))⟩

/-- `Row3` merged with `removal_stats` (stat columns still nullable, before
the `fillna` lines). -/
structure Row4 where
  nfl_id : Key
  avg_attention : ℚ
  high_attention_pct : ℚ
  play_count : ℕ
  display_name : Option String
  position : Option String
  latest_team : Option String
  headshot : Option String
  team_abbr : Option Key
  team_color : Option String
  team_color2 : Option String
  team_logo_squared : Option String
  team_wordmark : Option String
  position_group : String
  intervention_removal : Option ℕ
  impact_removal : Option ℚ
deriving DecidableEq, Repr

/-- `.merge(removal_stats, left_on="nfl_id", right_on="defender_nfl_id",
how="left")` (the redundant `defender_nfl_id` key column is not modelled;
`app.py` drops it and the streamlit variant leaves it suffixed and unread). -/
def mergeStats (l : List Row3) (st : List StatRow) : List Row4 :=
  leftMerge (fun (a : Row3) (s : StatRow) => s.defender_nfl_id == a.nfl_id)
    (fun a => ⟨a.nfl_id, a.avg_attention, a.high_attention_pct, a.play_count,
      a.display_name, a.position, a.latest_team, a.headshot,
      a.team_abbr, a.team_color, a.team_color2, a.team_logo_squared, a.team_wordmark,
      a.position_group, none, none⟩)
    (fun a s => ⟨a.nfl_id, a.avg_attention, a.high_attention_pct, a.play_count,
      a.display_name, a.position, a.latest_team, a.headshot,
      a.team_abbr, a.team_color, a.team_color2, a.team_logo_squared, a.team_wordmark,
      a.position_group, some s.intervention_removal, some s.impact_removal⟩)
    l st

/-- Final enriched row of `build_base_dataframe` (`app.py`). -/
structure EnrRow where
  nfl_id : Key
  avg_attention : ℚ
  high_attention_pct : ℚ
  play_count : ℕ
  display_name : Option String
  position : Option String
  latest_team : Option String
  headshot : Option String
  team_abbr : Option Key
  team_color : Option String
  team_color2 : Option String
  team_logo_squared : Option String
  team_wordmark : Option String
  position_group : String
  intervention_removal : ℕ
  impact_removal : ℚ
deriving DecidableEq, Repr, Inhabited

/-- `df["intervention_removal"] = ....fillna(0).astype(int)` and
`df["impact_removal"] = ....fillna(0)`. -/
def fillnaStats (r : Row4) : EnrRow :=
  ⟨r.nfl_id, r.avg_attention, r.high_attention_pct, r.play_count,
    r.display_name, r.position, r.latest_team, r.headshot,
    r.team_abbr, r.team_color, r.team_color2, r.team_logo_squared, r.team_wordmark,
    r.position_group, r.intervention_removal.getD 0, r.impact_removal.getD 0⟩

/-- `build_base_dataframe` (`app.py`, lines 28-96): key casts, the two
left merges, position grouping, the removal-only aggregation and its merge
with zero defaults.  Returns the enriched table together with the filtered
(removal-only, key-cast) intervention table, as the Python function does. -/
def build_base_dataframe (df : List AttRow) (ply : List PlyRow)
    (tms : List TeamRow) (itv : List ItvRow) : List EnrRow × List ItvRow :=
  let df1 := df.map castAtt
  let ply1 := ply.map castPly
  let tms1 := tms.map castTeam
  let m1 := mergePlayers df1 ply1
  let m2 := mergeTeams m1 tms1
  let m3 := m2.map addPositionGroup
  let itv1 := (removalFilter itv).map castItv
  let st := removalStats itv1
  let enr := (mergeStats m3 st).map fillnaStats
  (enr, itv1)

/-! ### Streamlit variant: `total_interventions` -/

/-- `df_detailed_results.groupby("defender_nfl_id").size()` on the already
removal-filtered frame (streamlit variant, line 95). -/
def totalStats (itv : List ItvRow) : List (Key × ℕ) :=
  (groupKeys itv).map fun k =>
    (k, (itv.filter (fun r => r.defender_nfl_id == k)).length)

/-- Enriched row merged with `total_interventions`, before its `fillna`. -/
structure Row5 where
  core : EnrRow
  total_interventions : Option ℕ
deriving DecidableEq, Repr

/-- Final enriched row of the streamlit variant. -/
structure EnrSRow where
  core : EnrRow
  total_interventions : ℕ
deriving DecidableEq, Repr, Inhabited

/-- Enrichment part of `create_player_attention_table`
(`player_attention_table_streamlit.py`, lines 34-106): identical to
`build_base_dataframe` through the removal-stats merge, then a second merge
adding `total_interventions` computed from the same removal-filtered frame.
(The Python guards the whole intervention block with
`df_detailed_results is not None and len(...) > 0`; this models the taken
branch, the one in which the intervention columns exist.) -/
def create_player_enriched (df : List AttRow) (ply : List PlyRow)
    (tms : List TeamRow) (itv : List ItvRow) : List EnrSRow :=
  let df1 := df.map castAtt
  let ply1 := ply.map castPly
  let tms1 := tms.map castTeam
  let m1 := mergePlayers df1 ply1
  let m2 := mergeTeams m1 tms1
  let m3 := m2.map addPositionGroup
  let itv1 := (removalFilter itv).map castItv
  let st := removalStats itv1
  let enr := (mergeStats m3 st).map fillnaStats
  let tot := totalStats itv1
  let m5 := leftMerge (fun (a : EnrRow) (s : Key × ℕ) => s.1 == a.nfl_id)
    (fun a => Row5.mk a none) (fun a s => Row5.mk a (some s.2)) enr tot
  m5.map (fun r => EnrSRow.mk r.core (r.total_interventions.getD 0))

/-! ### Sorting

Both variants sort with `DataFrame.sort_values(key, ascending=...)` and the
*default* `kind="quicksort"`.  For a single sort key pandas computes the row
permutation with `nargsort` (pandas `core/sorting.py`): null keys are split
off, the non-null keys are `argsort`ed with numpy (for descending sorts the
values and indices are reversed before the argsort and the resulting
indexer reversed after), and the null-key positions are appended at the end
(`na_position="last"`).  Numpy's `argsort(kind="quicksort")` is introsort
(numpy `npysort/quicksort.c.src`, `aquicksort`): median-of-3 quicksort on
the index array, insertion sort for segments of at most 16 elements
(`SMALL_QUICKSORT = 15`), heapsort fallback once the depth budget
`2*floor(log2 n)` is exhausted.  The model below mirrors that algorithm;
the C work-stack is rendered as recursion that processes the smaller
partition first (the same order the loop+stack produces), with the depth
budget threaded through sequentially as the shared C counter is. -/

/-- Element of the index array viewed through the value lookup:
`v[tosort[i]]`. -/
def valAt [Inhabited K] (v : Nat → K) (t : Array Nat) (i : Nat) : K :=
  v (t.getD i 0)

/-- Swap two positions of the index array. -/
def aswap (t : Array Nat) (i j : Nat) : Array Nat :=
  let x := t.getD i 0
  let y := t.getD j 0
  (t.setD i y).setD j x

/-- `do ++pi; while (v[*pi] < vp)`. -/
def scanUp [Inhabited K] (lt : K → K → Bool) (v : Nat → K) (vp : K) (t : Array Nat) :
    Nat → Nat → Nat
  | i, 0 => i
  | i, fuel + 1 => if lt (valAt v t i) vp then scanUp lt v vp t (i + 1) fuel else i

/-- `do --pj; while (vp < v[*pj])`. -/
def scanDown [Inhabited K] (lt : K → K → Bool) (v : Nat → K) (vp : K) (t : Array Nat) :
    Nat → Nat → Nat
  | j, 0 => j
  | j, fuel + 1 => if lt vp (valAt v t j) then scanDown lt v vp t (j - 1) fuel else j

/-- Hoare partition loop of `aquicksort`: move `pi` up and `pj` down, swap
while they have not crossed; returns the final `pi`. -/
def partLoop [Inhabited K] (lt : K → K → Bool) (v : Nat → K) (vp : K) :
    Array Nat → Nat → Nat → Nat → Array Nat × Nat
  | t, pi, _, 0 => (t, pi)
  | t, pi, pj, fuel + 1 =>
    let pi := scanUp lt v vp t (pi + 1) (fuel + 1)
    let pj := scanDown lt v vp t (pj - 1) (fuel + 1)
    if pj ≤ pi then (t, pi)
    else partLoop lt v vp (aswap t pi pj) pi pj fuel

/-- One sift of numpy `aheapsort` (1-based heap positions over the segment
starting at `pl`; `a[p]` is `t[pl + p - 1]`). -/
def heapSift [Inhabited K] (lt : K → K → Bool) (v : Nat → K) (pl : Nat) (n : Nat)
    (tmp : Nat) : Array Nat → Nat → Nat → Nat → Array Nat
  | t, i, _, 0 => t.setD (pl + i - 1) tmp
  | t, i, j, fuel + 1 =>
    if j ≤ n then
      let j := if j < n && lt (valAt v t (pl + j - 1)) (valAt v t (pl + j)) then j + 1 else j
      if lt (v tmp) (valAt v t (pl + j - 1)) then
        heapSift lt v pl n tmp (t.setD (pl + i - 1) (t.getD (pl + j - 1) 0)) j (2 * j) fuel
      else t.setD (pl + i - 1) tmp
    else t.setD (pl + i - 1) tmp

/-- numpy `aheapsort` on the segment `[pl, pl + n - 1]` of the index
array. -/
def heapSegment [Inhabited K] (lt : K → K → Bool) (v : Nat → K) (t : Array Nat)
    (pl n : Nat) : Array Nat :=
  let build := (List.range (n / 2)).foldl
    (fun t k =>
      let l := n / 2 - k
      heapSift lt v pl n (t.getD (pl + l - 1) 0) t l (2 * l) (n + 1)) t
  let extract := (List.range (n - 1)).foldl
    (fun t k =>
      let m := n - k
      let tmp := t.getD (pl + m - 1) 0
      let t := t.setD (pl + m - 1) (t.getD pl 0)
      heapSift lt v pl (m - 1) tmp t 1 2 (n + 1)) build
  extract

/-- Insert index `i` into an (already value-sorted) prefix, before the first
index holding a strictly greater value — the net effect of the
shift-from-the-right insertion in the C code. -/
def insIdx [Inhabited K] (lt : K → K → Bool) (v : Nat → K) (i : Nat) :
    List Nat → List Nat
  | [] => [i]
  | j :: l => if lt (v i) (v j) then i :: j :: l else j :: insIdx lt v i l

/-- The insertion-sort phase of `aquicksort` on the segment `[pl, pr]`:
the segment is insertion-sorted in place (rendered functionally: the
segment's entries are folded into a sorted list, each inserted before the
first strictly greater entry, and the segment is replaced by the
result). -/
def insSegment [Inhabited K] (lt : K → K → Bool) (v : Nat → K) (t : Array Nat)
    (pl pr : Nat) : Array Nat :=
  let seg := (t.toList.drop pl).take (pr + 1 - pl)
  let sorted := seg.foldl (fun acc i => insIdx lt v i acc) []
  (t.toList.take pl ++ sorted ++ t.toList.drop (pr + 1)).toArray

/-- Main recursion of numpy `aquicksort` on the segment `[pl, pr]`,
returning the index array and the remaining depth budget. -/
def npQSort [Inhabited K] (lt : K → K → Bool) (v : Nat → K) :
    Nat → Array Nat → Nat → Nat → ℤ → Array Nat × ℤ
  | 0, t, _, _, d => (t, d)
  | fuel + 1, t, pl, pr, d =>
    if pr ≤ pl + 15 then (insSegment lt v t pl pr, d)
    else if d < 0 then (heapSegment lt v t pl (pr - pl + 1), d - 1)
    else
      let d := d - 1
      let pm := pl + (pr - pl) / 2
      let t := if lt (valAt v t pm) (valAt v t pl) then aswap t pm pl else t
      let t := if lt (valAt v t pr) (valAt v t pm) then aswap t pr pm else t
      let t := if lt (valAt v t pm) (valAt v t pl) then aswap t pm pl else t
      let vp := valAt v t pm
      let t := aswap t pm (pr - 1)
      let (t, pi) := partLoop lt v vp t pl (pr - 1) (pr - pl + 2)
      let t := aswap t pi (pr - 1)
      if pi - pl < pr - pi then
        let (t, d) := npQSort lt v fuel t pl (pi - 1) d
        npQSort lt v fuel t (pi + 1) pr d
      else
        let (t, d) := npQSort lt v fuel t (pi + 1) pr d
        npQSort lt v fuel t pl (pi - 1) d

/-- numpy `argsort(kind="quicksort")` of a list of values: introsort of the
index array `[0, ..., n-1]` with depth budget `2*floor(log2 n)`. -/
def npArgsort [Inhabited K] (lt : K → K → Bool) (vals : List K) : List Nat :=
  let n := vals.length
  if n = 0 then []
  else
    let v := fun i => vals.getD i default
    (npQSort lt v (n + 1) (Array.range n) 0 (n - 1) (2 * (Nat.log2 n : ℤ))).1.toList

/-- Pandas `nargsort(items, kind="quicksort", ascending, na_position="last")`
for a single sort key: null keys go last (in original order); for a
descending sort the non-null values and their positions are reversed before
the ascending argsort and the resulting indexer reversed after. -/
def nargsort [Inhabited K] (lt : K → K → Bool) (keys : List (Option K))
    (ascending : Bool) : List Nat :=
  let idx := List.range keys.length
  let nonNanIdx := idx.filter (fun i => (keys.getD i none).isSome)
  let nanIdx := idx.filter (fun i => (keys.getD i none).isNone)
  let nn := if ascending then nonNanIdx else nonNanIdx.reverse
  let vals := nn.map (fun i => (keys.getD i none).getD default)
  let order := npArgsort lt vals
  let indexer := order.map (fun j => nn.getD j 0)
  let indexer := if ascending then indexer else indexer.reverse
  indexer ++ nanIdx

/-- `DataFrame.sort_values(key, ascending=..., kind="quicksort")` for a
single key: permute the rows by the `nargsort` indexer. -/
def sortValuesBy [Inhabited K] (lt : K → K → Bool) (key : R → Option K)
    (ascending : Bool) (rows : List R) : List R :=
  (nargsort lt (rows.map key) ascending).filterMap (fun i => rows.get? i)

/-- The five supported sort keys. -/
inductive SortKey where
  | impact_removal
  | avg_attention
  | high_attention_pct
  | play_count
  | display_name
deriving DecidableEq, Repr

/-- `ascending = sort_value == "display_name"` followed by
`sort_values(sort_value, ascending=ascending)`, for any row type carrying
the enriched columns. -/
def sortStepBy [Inhabited R] (proj : R → EnrRow) (k : SortKey) (rows : List R) :
    List R :=
  match k with
  | .impact_removal =>
    sortValuesBy (fun a b : ℚ => decide (a < b)) (fun r => some (proj r).impact_removal) false rows
  | .avg_attention =>
    sortValuesBy (fun a b : ℚ => decide (a < b)) (fun r => some (proj r).avg_attention) false rows
  | .high_attention_pct =>
    sortValuesBy (fun a b : ℚ => decide (a < b)) (fun r => some (proj r).high_attention_pct) false rows
  | .play_count =>
    sortValuesBy (fun a b : ℕ => decide (a < b)) (fun r => some (proj r).play_count) false rows
  | .display_name =>
    sortValuesBy (fun a b : String => decide (a < b)) (fun r => (proj r).display_name) true rows

/-! ### Filter + sort + rank views -/

/-- `if position_value != "all": df_view = df_view[position_group == ...]`
(identical predicate in both variants, generic in the row type). -/
def posFilter (proj : R → EnrRow) (pv : String) (v : List R) : List R :=
  if pv ≠ "all" then v.filter (fun r => (proj r).position_group == pv) else v

/-- Pandas `.max()` of the `play_count` column. -/
def maxPlays (proj : R → EnrRow) (v : List R) : ℕ :=
  (v.map (fun r => (proj r).play_count)).foldl max 0

/-- `app.py` lines 139-141: `if plays_value > 0 and len(df_view) > 0:`
compute the cutoff from the current subset's max and keep rows at or above
it; skipped entirely when the subset is empty. -/
def playsFilterA (plays_value : ℕ) (v : List EnrRow) : List EnrRow :=
  if 0 < plays_value ∧ 0 < v.length then
    v.filter (fun r =>
      decide ((plays_value : ℚ) / 100 * (maxPlays id v : ℚ) ≤ (r.play_count : ℚ)))
  else v

/-- `app.py` lines 134-145: position filter, play-volume filter (computed
over the currently filtered subset, skipped when it is empty), sort, and
1-based rank. -/
def dfView (base : List EnrRow) (position_value : String) (plays_value : ℕ)
    (sort_value : SortKey) : List (EnrRow × ℕ) :=
  let v := playsFilterA plays_value (posFilter id position_value base)
  let v := sortStepBy id sort_value v
  v.enum.map (fun p => (p.2, p.1 + 1))

/-- Python `display_name.str.contains(q, case=False, na=False)` on one
cell. -/
def strContainsCI (s q : String) : Bool := subStr q.toLower s.toLower

/-- Filter parameters of the streamlit variant, after the UI-label maps
(`position_map`, `plays_map`, `sort_map`) have been applied. -/
structure SParams where
  search : String
  team_filter : String
  selected_position : String
  plays_threshold : ℕ
  sort_column : SortKey
  page_number : ℕ
deriving DecidableEq, Repr

/-- Streamlit search filter:
`display_name.str.contains(search_query, case=False, na=False)`. -/
def searchFilter (search : String) (v : List EnrSRow) : List EnrSRow :=
  if search ≠ "" then
    v.filter (fun r => match r.core.display_name with
      | none => false
      | some nm => strContainsCI nm search)
  else v

/-- Streamlit team filter: `latest_team == team_filter`. -/
def teamFilter (team : String) (v : List EnrSRow) : List EnrSRow :=
  if team ≠ "All Teams" then v.filter (fun r => r.core.latest_team == some team) else v

/-- Streamlit play-volume filter, lines 514-518: when the current subset is
empty the `else 1` branch supplies `max_plays = 1` and the comparison runs
over no rows at all. -/
def playsFilterS (plays_threshold : ℕ) (v : List EnrSRow) : List EnrSRow :=
  if 0 < plays_threshold then
    let mx : ℚ := if 0 < v.length then (maxPlays EnrSRow.core v : ℚ) else 1
    v.filter (fun r => decide ((plays_threshold : ℚ) / 100 * mx ≤ (r.core.play_count : ℚ)))
  else v

/-- `create_player_attention_table` lines 496-529: search, team, position
and play-volume filters, sort, 1-based rank. -/
def filteredDf (full : List EnrSRow) (p : SParams) : List (EnrSRow × ℕ) :=
  let v := searchFilter p.search full
  let v := teamFilter p.team_filter v
  let v := posFilter EnrSRow.core p.selected_position v
  let v := playsFilterS p.plays_threshold v
  let v := sortStepBy EnrSRow.core p.sort_column v
  v.enum.map (fun q => (q.2, q.1 + 1))

/-- Pagination, `items_per_page = 50`: `filtered_df.iloc[start:end]`. -/
def paginate (l : List α) (page : ℕ) : List α :=
  (l.drop ((page - 1) * 50)).take 50

/-- The rows the streamlit variant renders for one interaction. -/
def displayedRows (full : List EnrSRow) (p : SParams) : List (EnrSRow × ℕ) :=
  paginate (filteredDf full p) p.page_number

/-- The four quadrant labels of `get_player_category` (the dict payloads —
title/desc/color — are presentation text keyed by the branch taken). -/
inductive Category where
  | highHigh
  | lowHigh
  | highLow
  | lowLow
deriving DecidableEq, Repr

/-- `get_player_category(avg_attention, impact_removal, df_data)`: medians
of `df_data`, a row is High on an axis iff its value is `≥` the median. -/
def get_player_category (avg_attention impact_removal : ℚ) (df_data : List EnrSRow) :
    Category :=
  let attention_median := median (df_data.map (·.core.avg_attention))
  let impact_median := median (df_data.map (·.core.impact_removal))
  let high_attention := attention_median ≤ avg_attention
  let high_impact := impact_median ≤ impact_removal
  if high_attention ∧ high_impact then .highHigh
  else if ¬high_attention ∧ high_impact then .lowHigh
  else if high_attention ∧ ¬high_impact then .highLow
  else .lowLow

/-- What `create_table_html(paginated_df, df_with_players)` computes for
each rendered row: the row, its rank, and its category — the category call
receives the *full* enriched table `df_with_players`, not the filtered
subset. -/
def displayedLabels (full : List EnrSRow) (p : SParams) :
    List (EnrSRow × ℕ × Category) :=
  (displayedRows full p).map
    (fun q => (q.1, q.2, get_player_category q.1.core.avg_attention q.1.core.impact_removal full))

/-! ### Object-store model of the enrichment functions

To settle the frame claim ("input tables are never mutated") the two
enrichment functions are replayed over an explicit object store.  Python
variables hold addresses; pandas expressions that build a new frame
(`copy`, `merge`, boolean indexing, `groupby`+`agg`) allocate, while
column assignment (`df[col] = ...`) and `inplace=True` operations write to
the frame the variable currently points at.  The pipeline mutates only
objects it allocated itself; the theorem checks the four input addresses
still hold their original values afterwards. -/

/-- A pandas frame at any stage of the pipeline. -/
inductive TabV where
  | tAtt (t : List AttRow)
  | tPly (t : List PlyRow)
  | tTeam (t : List TeamRow)
  | tItv (t : List ItvRow)
  | tRow1 (t : List Row1)
  | tRow2 (t : List Row2)
  | tRow3 (t : List Row3)
  | tStat (t : List StatRow)
  | tRow4 (t : List Row4)
  | tEnr (t : List EnrRow)
  | tTot (t : List (Key × ℕ))
  | tRow5 (t : List Row5)
  | tEnrS (t : List EnrSRow)
deriving Repr

/-- Object store: addresses are list positions. -/
abbrev Heap := List TabV

/-- Dereference an address (junk default; the embedding only reads
addresses it knows are live and well-typed). -/
def hRead (h : Heap) (i : ℕ) : TabV := h.getD i (.tAtt [])

/-- Destructive write (column assignment / `inplace=True`). -/
def hWrite (h : Heap) (i : ℕ) (v : TabV) : Heap := h.set i v

def TabV.asAtt : TabV → List AttRow
  | .tAtt t => t
  | _ => []

def TabV.asPly : TabV → List PlyRow
  | .tPly t => t
  | _ => []

def TabV.asTeam : TabV → List TeamRow
  | .tTeam t => t
  | _ => []

def TabV.asItv : TabV → List ItvRow
  | .tItv t => t
  | _ => []

def TabV.asRow1 : TabV → List Row1
  | .tRow1 t => t
  | _ => []

def TabV.asRow2 : TabV → List Row2
  | .tRow2 t => t
  | _ => []

def TabV.asRow3 : TabV → List Row3
  | .tRow3 t => t
  | _ => []

def TabV.asStat : TabV → List StatRow
  | .tStat t => t
  | _ => []

def TabV.asRow4 : TabV → List Row4
  | .tRow4 t => t
  | _ => []

def TabV.asEnr : TabV → List EnrRow
  | .tEnr t => t
  | _ => []

def TabV.asTot : TabV → List (Key × ℕ)
  | .tTot t => t
  | _ => []

def TabV.asRow5 : TabV → List Row5
  | .tRow5 t => t
  | _ => []

/-- `build_base_dataframe` replayed statement by statement over the object
store.  Returns the store plus the addresses of the two returned frames.
Allocation of the k-th fresh frame is an append at address
`h0.length + k`; each frame's current value is also bound to a local (as
the Python variable gives access to it) — the code is straight-line with
no aliased writes between a bind and its use, and every write's target
address is still recorded in the heap.
(The two `fillna` column assignments on the same frame are rendered as one
write of both columns, and the dropped helper key column is not modelled,
so the `inplace=True` drop is a write of the unchanged frame.) -/
def buildBaseSt (h0 : Heap) (aDf aPly aTeams aItv : ℕ) : Heap × ℕ × ℕ :=
  let n := h0.length
  let vDf := hRead h0 aDf
  let vPly := hRead h0 aPly
  let vTms := hRead h0 aTeams
  let vItv := hRead h0 aItv
  let h1 := h0 ++ [vDf]
  let h2 := h1 ++ [vPly]
  let h3 := h2 ++ [vTms]
  let vDf1 := vDf.asAtt.map castAtt
  let h4 := hWrite h3 n (.tAtt vDf1)
  let vPly1 := vPly.asPly.map castPly
  let h5 := hWrite h4 (n + 1) (.tPly vPly1)
  let vTms1 := vTms.asTeam.map castTeam
  let h6 := hWrite h5 (n + 2) (.tTeam vTms1)
  let vM1 := mergePlayers vDf1 vPly1
  let h7 := h6 ++ [.tRow1 vM1]
  let vM2 := mergeTeams vM1 vTms1
  let h8 := h7 ++ [.tRow2 vM2]
  let vM3 := vM2.map addPositionGroup
  let h9 := hWrite h8 (n + 4) (.tRow3 vM3)
  let vItvF := removalFilter vItv.asItv
  let h10 := h9 ++ [.tItv vItvF]
  let h11 := h10 ++ [.tItv vItvF]
  let vItv1 := vItvF.map castItv
  let h12 := hWrite h11 (n + 6) (.tItv vItv1)
  let vSt := removalStats vItv1
  let h13 := h12 ++ [.tStat vSt]
  let vM4 := mergeStats vM3 vSt
  let h14 := h13 ++ [.tRow4 vM4]
  let vEnr := vM4.map fillnaStats
  let h15 := hWrite h14 (n + 8) (.tEnr vEnr)
  let h16 := hWrite h15 (n + 8) (.tEnr vEnr)
  (h16, n + 8, n + 6)

/-- Enrichment half of `create_player_attention_table` replayed over the
object store (same linear-threading conventions as `buildBaseSt`).  The one
structural difference from `build_base_dataframe`: line 77 rebinds
`df_detailed_results` to the boolean-indexing result *without* `.copy()`,
and line 78 assigns a column on that object — the write lands on the fresh
filtered frame (pandas boolean indexing returns a new frame), not on the
caller's table. -/
def createPlayerSt (h0 : Heap) (aDf aPly aTeams aItv : ℕ) : Heap × ℕ :=
  let n := h0.length
  let vDf := hRead h0 aDf
  let vPly := hRead h0 aPly
  let vTms := hRead h0 aTeams
  let vItv := hRead h0 aItv
  let h1 := h0 ++ [vDf]
  let h2 := h1 ++ [vPly]
  let h3 := h2 ++ [vTms]
  let vDf1 := vDf.asAtt.map castAtt
  let h4 := hWrite h3 n (.tAtt vDf1)
  let vPly1 := vPly.asPly.map castPly
  let h5 := hWrite h4 (n + 1) (.tPly vPly1)
  let vTms1 := vTms.asTeam.map castTeam
  let h6 := hWrite h5 (n + 2) (.tTeam vTms1)
  let vM1 := mergePlayers vDf1 vPly1
  let h7 := h6 ++ [.tRow1 vM1]
  let vM2 := mergeTeams vM1 vTms1
  let h8 := h7 ++ [.tRow2 vM2]
  let vM3 := vM2.map addPositionGroup
  let h9 := hWrite h8 (n + 4) (.tRow3 vM3)
  let vItvF := removalFilter vItv.asItv
  let h10 := h9 ++ [.tItv vItvF]
  let vItv1 := vItvF.map castItv
  let h11 := hWrite h10 (n + 5) (.tItv vItv1)
  let vSt := removalStats vItv1
  let h12 := h11 ++ [.tStat vSt]
  let vM4 := mergeStats vM3 vSt
  let h13 := h12 ++ [.tRow4 vM4]
  let vEnr := vM4.map fillnaStats
  let h14 := hWrite h13 (n + 7) (.tEnr vEnr)
  let vTot := totalStats vItv1
  let h15 := h14 ++ [.tTot vTot]
  let vM5 := leftMerge (fun (a : EnrRow) (s : Key × ℕ) => s.1 == a.nfl_id)
    (fun a => Row5.mk a none) (fun a s => Row5.mk a (some s.2)) vEnr vTot
  let h16 := h15 ++ [.tRow5 vM5]
  let vEnrS := vM5.map (fun r => EnrSRow.mk r.core (r.total_interventions.getD 0))
  let h17 := hWrite h16 (n + 9) (.tEnrS vEnrS)
  (h17, n + 9)

/-! ### Per-row form of the pipeline under unique metadata keys -/

/-- One-row form of the player merge when the metadata keys are unique:
the single match (if any) through `find?`. -/
def joinPlyRow (ps : List PlyRow) (a : AttRow) : Row1 :=
  match ps.find? (fun p => p.nfl_id == a.nfl_id) with
  | none => ⟨a.nfl_id, a.avg_attention, a.high_attention_pct, a.play_count,
      none, none, none, none⟩
  | some p => ⟨a.nfl_id, a.avg_attention, a.high_attention_pct, a.play_count,
      p.display_name, p.position, p.latest_team, p.headshot⟩

/-- One-row form of the team merge when the team keys are unique. -/
def joinTeamRow (ts : List TeamRow) (r1 : Row1) : Row2 :=
  match ts.find? (fun t => r1.latest_team == some t.team_abbr.toStr) with
  | none => ⟨r1.nfl_id, r1.avg_attention, r1.high_attention_pct, r1.play_count,
      r1.display_name, r1.position, r1.latest_team, r1.headshot,
      none, none, none, none, none⟩
  | some t => ⟨r1.nfl_id, r1.avg_attention, r1.high_attention_pct, r1.play_count,
      r1.display_name, r1.position, r1.latest_team, r1.headshot,
      some t.team_abbr, t.team_color, t.team_color2, t.team_logo_squared, t.team_wordmark⟩

/-- One-row form of the removal-stats merge (the aggregate's keys are
always unique). -/
def joinStatRow (st : List StatRow) (r3 : Row3) : Row4 :=
  match st.find? (fun s => s.defender_nfl_id == r3.nfl_id) with
  | none => ⟨r3.nfl_id, r3.avg_attention, r3.high_attention_pct, r3.play_count,
      r3.display_name, r3.position, r3.latest_team, r3.headshot,
      r3.team_abbr, r3.team_color, r3.team_color2, r3.team_logo_squared, r3.team_wordmark,
      r3.position_group, none, none⟩
  | some s => ⟨r3.nfl_id, r3.avg_attention, r3.high_attention_pct, r3.play_count,
      r3.display_name, r3.position, r3.latest_team, r3.headshot,
      r3.team_abbr, r3.team_color, r3.team_color2, r3.team_logo_squared, r3.team_wordmark,
      r3.position_group, some s.intervention_removal, some s.impact_removal⟩

/-- One-row form of the `total_interventions` merge. -/
def joinTotRow (tot : List (Key × ℕ)) (a : EnrRow) : Row5 :=
  match tot.find? (fun s => s.1 == a.nfl_id) with
  | none => ⟨a, none⟩
  | some s => ⟨a, some s.2⟩

/-- The enriched row produced for one attention row when both metadata
tables have unique (cast) keys: each left merge then finds at most one
match, so the whole pipeline acts row by row through `find?` lookups. -/
def buildRow (ply : List PlyRow) (tms : List TeamRow) (itv : List ItvRow)
    (a : AttRow) : EnrRow :=
  fillnaStats
    (joinStatRow (removalStats ((removalFilter itv).map castItv))
      (addPositionGroup
        (joinTeamRow (tms.map castTeam)
          (joinPlyRow (ply.map castPly) (castAtt a)))))

/-! ### Reference stable sort (specification side for the sorting claim) -/

/-- Total comparator on position-tagged rows: null sort keys come last
(ties between nulls by original position), non-null keys compared in the
requested direction, equal keys by original position — the order a stable
sort by the key must realize. -/
def stableLe [LinearOrder K] (key : R → Option K) (ascending : Bool)
    (a b : ℕ × R) : Bool :=
  match key a.2, key b.2 with
  | none, none => decide (a.1 ≤ b.1)
  | none, some _ => false
  | some _, none => true
  | some x, some y =>
    if x = y then decide (a.1 ≤ b.1)
    else if ascending then decide (x < y) else decide (y < x)

/-- The stable sort by a key: tag each row with its position, sort by the
total comparator above, drop the tags. -/
def stableSortBy [LinearOrder K] [Inhabited R] (key : R → Option K)
    (ascending : Bool) (rows : List R) : List R :=
  (insSortLe (stableLe key ascending) rows.enum).map Prod.snd

/-- The same comparator at the position level, reading the key column. -/
def nIdxLe [LinearOrder K] (keys : List (Option K)) (ascending : Bool)
    (i j : ℕ) : Bool :=
  match keys.getD i none, keys.getD j none with
  | none, none => decide (i ≤ j)
  | none, some _ => false
  | some _, none => true
  | some x, some y =>
    if x = y then decide (i ≤ j)
    else if ascending then decide (x < y) else decide (y < x)

/-- The stable sort for each supported sort key, with the direction the
code requests (`ascending` only for `display_name`). -/
def stableSortStep [Inhabited R] (proj : R → EnrRow) (k : SortKey)
    (rows : List R) : List R :=
  match k with
  | .impact_removal => stableSortBy (fun r => some (proj r).impact_removal) false rows
  | .avg_attention => stableSortBy (fun r => some (proj r).avg_attention) false rows
  | .high_attention_pct => stableSortBy (fun r => some (proj r).high_attention_pct) false rows
  | .play_count => stableSortBy (fun r => some (proj r).play_count) false rows
  | .display_name => stableSortBy (fun r => (proj r).display_name) true rows

/-- Stable ascending argsort order at the value level: position `a` precedes
position `b` when its value is smaller, or the values are equal and `a`
comes first. -/
def argLe [LinearOrder K] (v : ℕ → K) (a b : ℕ) : Prop :=
  v a < v b ∨ (v a = v b ∧ a ≤ b)

/-! ## Supporting lemmas -/

theorem find?_eq_head?_filter (p : α → Bool) (l : List α) :
    l.find? p = (l.filter p).head? := by
  induction l with
  | nil => rfl
  | cons a l ih =>
    by_cases h : p a
    · rw [List.find?_cons_of_pos _ h, List.filter_cons_of_pos h]; rfl
    · rw [List.find?_cons_of_neg _ (by simpa using h), List.filter_cons_of_neg (by simpa using h), ih]

theorem length_filter_le_one_of_nodup (f : α → κ) [DecidableEq κ]
    (p : α → Bool) (hp : ∀ x y, p x = true → p y = true → f x = f y) :
    ∀ (l : List α), (l.map f).Nodup → (l.filter p).length ≤ 1 := by
  intro l
  induction l with
  | nil => simp
  | cons a l ih =>
    intro h
    rw [List.map_cons, List.nodup_cons] at h
    by_cases ha : p a
    · have hnil : l.filter p = [] := by
        rw [List.filter_eq_nil_iff]
        intro x hx hpx
        exact h.1 ((hp x a hpx ha) ▸ List.mem_map_of_mem f hx)
      simp [List.filter_cons, ha, hnil]
    · rw [List.filter_cons_of_neg (by simpa using ha)]
      exact ih h.2

theorem leftMerge_eq_map {m : α → β → Bool} {u : α → γ} {c : α → β → γ} {r : List β}
    (l : List α) (h : ∀ a ∈ l, (r.filter (m a)).length ≤ 1) :
    leftMerge m u c l r = l.map (fun a =>
      match r.find? (m a) with
      | none => u a
      | some b => c a b) := by
  induction l with
  | nil => rfl
  | cons a l ih =>
    have ha := h a (List.mem_cons_self a l)
    have hl := ih (fun x hx => h x (List.mem_cons_of_mem _ hx))
    unfold leftMerge at hl ⊢
    rw [List.flatMap_cons, hl, List.map_cons]
    rcases hf : r.filter (m a) with _ | ⟨b, bs⟩
    · have : r.find? (m a) = none := by
        rw [find?_eq_head?_filter, hf]; rfl
      simp [hf, this]
    · have hbs : bs = [] := by
        rw [hf, List.length_cons] at ha
        exact List.eq_nil_of_length_eq_zero (by omega)
      have : r.find? (m a) = some b := by
        rw [find?_eq_head?_filter, hf]; rfl
      subst hbs
      simp [hf, this]

theorem leftMerge_length (m : α → β → Bool) (u : α → γ) (c : α → β → γ)
    (l : List α) (r : List β) :
    (leftMerge m u c l r).length =
      (l.map (fun a => max 1 (r.filter (m a)).length)).sum := by
  induction l with
  | nil => rfl
  | cons a l ih =>
    unfold leftMerge at ih ⊢
    rw [List.flatMap_cons, List.length_append, ih, List.map_cons, List.sum_cons]
    congr 1
    rcases hf : r.filter (m a) with _ | ⟨b, bs⟩
    · simp [hf]
    · simp [hf, Nat.max_eq_right (Nat.succ_le_succ (Nat.zero_le _))]

theorem mem_uniqAux [DecidableEq α] (l : List α) :
    ∀ (seen : List α) (x : α), x ∈ uniqAux seen l ↔ x ∈ l ∧ x ∉ seen := by
  induction l with
  | nil => intro seen x; simp [uniqAux]
  | cons a l ih =>
    intro seen x
    by_cases h : a ∈ seen
    · rw [uniqAux, if_pos h, ih]
      constructor
      · rintro ⟨hx, hs⟩; exact ⟨List.mem_cons_of_mem _ hx, hs⟩
      · rintro ⟨hx, hs⟩
        rcases List.mem_cons.1 hx with rfl | hx
        · exact absurd h hs
        · exact ⟨hx, hs⟩
    · rw [uniqAux, if_neg h]
      constructor
      · intro hx
        rcases List.mem_cons.1 hx with rfl | hx
        · exact ⟨List.mem_cons_self _ _, h⟩
        · rcases (ih _ _).1 hx with ⟨h1, h2⟩
          exact ⟨List.mem_cons_of_mem _ h1,
            fun hs => h2 (List.mem_cons_of_mem _ hs)⟩
      · rintro ⟨hx, hs⟩
        rcases List.mem_cons.1 hx with rfl | hx
        · exact List.mem_cons_self _ _
        · by_cases hxa : x = a
          · subst hxa; exact List.mem_cons_self _ _
          · exact List.mem_cons_of_mem _ ((ih _ _).2
              ⟨hx, fun hm => (List.mem_cons.1 hm).elim hxa hs⟩)

theorem nodup_uniqAux [DecidableEq α] (l : List α) :
    ∀ seen, (uniqAux seen l).Nodup := by
  induction l with
  | nil => intro _; simp [uniqAux]
  | cons a l ih =>
    intro seen
    by_cases h : a ∈ seen
    · rw [uniqAux, if_pos h]; exact ih seen
    · rw [uniqAux, if_neg h]
      refine List.nodup_cons.2 ⟨?_, ih _⟩
      intro hmem
      exact ((mem_uniqAux l _ a).1 hmem).2 (List.mem_cons_self _ _)

theorem mem_uniq [DecidableEq α] (l : List α) (x : α) : x ∈ uniq l ↔ x ∈ l := by
  rw [uniq, mem_uniqAux]; simp

theorem nodup_uniq [DecidableEq α] (l : List α) : (uniq l).Nodup :=
  nodup_uniqAux l []

theorem insertLe_perm (le : α → α → Bool) (a : α) (l : List α) :
    (insertLe le a l).Perm (a :: l) := by
  induction l with
  | nil => exact List.Perm.refl _
  | cons b l ih =>
    by_cases h : le a b
    · rw [insertLe, if_pos h]
    · rw [insertLe, if_neg h]
      exact (ih.cons b).trans (List.Perm.swap a b l)

theorem insSortLe_perm (le : α → α → Bool) (l : List α) :
    (insSortLe le l).Perm l := by
  induction l with
  | nil => exact List.Perm.refl _
  | cons a l ih =>
    exact (insertLe_perm le a _).trans (ih.cons a)

theorem mem_insSortLe (le : α → α → Bool) (l : List α) (x : α) :
    x ∈ insSortLe le l ↔ x ∈ l :=
  (insSortLe_perm le l).mem_iff

theorem nodup_insSortLe (le : α → α → Bool) (l : List α) (h : l.Nodup) :
    (insSortLe le l).Nodup :=
  (insSortLe_perm le l).nodup_iff.2 h

theorem mem_groupKeys (itv : List ItvRow) (k : Key) :
    k ∈ groupKeys itv ↔ k ∈ itv.map (·.defender_nfl_id) := by
  rw [groupKeys, mem_insSortLe, mem_uniq]

theorem groupKeys_nodup (itv : List ItvRow) : (groupKeys itv).Nodup :=
  nodup_insSortLe _ _ (nodup_uniq _)

theorem find?_map_general (f : α → β) (p : β → Bool) (l : List α) :
    (l.map f).find? p = (l.find? (fun a => p (f a))).map f := by
  induction l with
  | nil => rfl
  | cons a l ih =>
    by_cases h : p (f a)
    · simp [List.find?_cons, h]
    · simp [List.find?_cons, h, ih]

theorem find?_beq [DecidableEq κ] (l : List κ) (k : κ) :
    l.find? (fun x => x == k) = if k ∈ l then some k else none := by
  induction l with
  | nil => rfl
  | cons a l ih =>
    by_cases h : a = k
    · subst h
      rw [List.find?_cons_of_pos _ (by simp)]
      simp
    · rw [List.find?_cons_of_neg _ (by simp [h]), ih]
      have h' : k ≠ a := fun hka => h hka.symm
      by_cases hk : k ∈ l
      · simp [hk, List.mem_cons]
      · simp [hk, List.mem_cons, h']

theorem removalStats_keys (itv : List ItvRow) :
    (removalStats itv).map (·.defender_nfl_id) = groupKeys itv := by
  rw [removalStats, List.map_map]
  exact List.map_id _

theorem removalStats_find? (itv : List ItvRow) (k : Key) :
    (removalStats itv).find? (fun s => s.defender_nfl_id == k) =
      (if k ∈ itv.map (·.defender_nfl_id) then
        some ⟨k, (itv.filter (fun r => r.defender_nfl_id == k)).length,
          mean ((itv.filter (fun r => r.defender_nfl_id == k)).map (·.impact_score))⟩
       else none) := by
  have h1 : (removalStats itv).find? (fun s => s.defender_nfl_id == k) =
      Option.map (fun k' : Key =>
        (⟨k', (itv.filter (fun r => r.defender_nfl_id == k')).length,
          mean ((itv.filter (fun r => r.defender_nfl_id == k')).map (·.impact_score))⟩ :
          StatRow))
        ((groupKeys itv).find? (fun k' => k' == k)) := by
    rw [removalStats, find?_map_general]
  rw [h1, find?_beq]
  by_cases hk : k ∈ itv.map (·.defender_nfl_id)
  · rw [if_pos ((mem_groupKeys itv k).2 hk), if_pos hk]; rfl
  · rw [if_neg (fun hm => hk ((mem_groupKeys itv k).1 hm)), if_neg hk]; rfl

/-! ## Claim C7 -/

/-- C7: position grouping is a pure function of the raw position string
evaluated with the fixed precedence LB, then CB, then S, then Other: a
null/missing position maps to Other; a string containing any of
LB/ILB/MLB/OLB as a substring maps to LB even if it also contains a CB or
S token; else one containing CB or DB maps to CB; else one containing S or
SAF maps to S; else Other. -/
theorem C7_position_grouping :
    get_position_group none = "Other"
    ∧ (∀ s : String, (subStr "LB" s ∨ subStr "ILB" s ∨ subStr "MLB" s ∨ subStr "OLB" s) →
        get_position_group (some s) = "LB")
    ∧ (∀ s : String, ¬(subStr "LB" s ∨ subStr "ILB" s ∨ subStr "MLB" s ∨ subStr "OLB" s) →
        (subStr "CB" s ∨ subStr "DB" s) → get_position_group (some s) = "CB")
    ∧ (∀ s : String, ¬(subStr "LB" s ∨ subStr "ILB" s ∨ subStr "MLB" s ∨ subStr "OLB" s) →
        ¬(subStr "CB" s ∨ subStr "DB" s) → (subStr "S" s ∨ subStr "SAF" s) →
        get_position_group (some s) = "S")
    ∧ (∀ s : String, ¬(subStr "LB" s ∨ subStr "ILB" s ∨ subStr "MLB" s ∨ subStr "OLB" s) →
        ¬(subStr "CB" s ∨ subStr "DB" s) → ¬(subStr "S" s ∨ subStr "SAF" s) →
        get_position_group (some s) = "Other") := by
  refine ⟨rfl, ?_, ?_, ?_, ?_⟩
  · intro s h
    have hb : (["LB", "ILB", "MLB", "OLB"].any fun v => subStr v s) = true := by
      simp only [List.any_cons, List.any_nil, Bool.or_eq_true]
      rcases h with h | h | h | h <;> simp [h]
    simp [get_position_group, hb]
  · intro s hn hc
    simp only [not_or, Bool.not_eq_true] at hn
    have hb : (["LB", "ILB", "MLB", "OLB"].any fun v => subStr v s) = false := by
      simp [List.any_cons, hn.1, hn.2.1, hn.2.2.1, hn.2.2.2]
    have hb2 : (["CB", "DB"].any fun v => subStr v s) = true := by
      simp only [List.any_cons, List.any_nil, Bool.or_eq_true]
      rcases hc with h | h <;> simp [h]
    simp [get_position_group, hb, hb2]
  · intro s hn hc hs
    simp only [not_or, Bool.not_eq_true] at hn hc
    have hb : (["LB", "ILB", "MLB", "OLB"].any fun v => subStr v s) = false := by
      simp [List.any_cons, hn.1, hn.2.1, hn.2.2.1, hn.2.2.2]
    have hb2 : (["CB", "DB"].any fun v => subStr v s) = false := by
      simp [List.any_cons, hc.1, hc.2]
    have hb3 : (["S", "SAF"].any fun v => subStr v s) = true := by
      simp only [List.any_cons, List.any_nil, Bool.or_eq_true]
      rcases hs with h | h <;> simp [h]
    simp [get_position_group, hb, hb2, hb3]
  · intro s hn hc hs
    simp only [not_or, Bool.not_eq_true] at hn hc hs
    have hb : (["LB", "ILB", "MLB", "OLB"].any fun v => subStr v s) = false := by
      simp [List.any_cons, hn.1, hn.2.1, hn.2.2.1, hn.2.2.2]
    have hb2 : (["CB", "DB"].any fun v => subStr v s) = false := by
      simp [List.any_cons, hc.1, hc.2]
    have hb3 : (["S", "SAF"].any fun v => subStr v s) = false := by
      simp [List.any_cons, hs.1, hs.2]
    simp [get_position_group, hb, hb2, hb3]

/-- Witness for C7: a value holding both an LB and a CB token resolves to
LB, and one holding both a CB and an S token resolves to CB. -/
theorem C7_witness :
    get_position_group (some "OLB/CB") = "LB" ∧ get_position_group (some "CB.S") = "CB" :=
  ⟨C7_position_grouping.2.1 "OLB/CB" (by decide),
   C7_position_grouping.2.2.1 "CB.S" (by decide) (by decide)⟩

/-! ## Claim C9 -/

set_option maxHeartbeats 1600000 in
/-- Sanity check that the object-store replay computes the same frames as
the pure pipeline: the frame returned by `buildBaseSt` at its first output
address is the pure `build_base_dataframe` enriched table. -/
theorem buildBaseSt_models_pure (att : List AttRow) (ply : List PlyRow)
    (tms : List TeamRow) (itv : List ItvRow) :
    hRead (buildBaseSt [.tAtt att, .tPly ply, .tTeam tms, .tItv itv] 0 1 2 3).1
        (buildBaseSt [.tAtt att, .tPly ply, .tTeam tms, .tItv itv] 0 1 2 3).2.1
      = .tEnr (build_base_dataframe att ply tms itv).1 := rfl

set_option maxHeartbeats 1600000 in
/-- C9: the pipeline never mutates its four input tables.  Replaying both
enrichment functions over the object store leaves the four input addresses
holding their original tables — every column assignment and in-place
operation targets a frame the function allocated itself (a `.copy()`, a
merge result, or a boolean-indexing result), never an input. -/
theorem C9_no_input_mutation (att : List AttRow) (ply : List PlyRow)
    (tms : List TeamRow) (itv : List ItvRow) :
    (buildBaseSt [.tAtt att, .tPly ply, .tTeam tms, .tItv itv] 0 1 2 3).1.take 4
        = [.tAtt att, .tPly ply, .tTeam tms, .tItv itv]
      ∧ (createPlayerSt [.tAtt att, .tPly ply, .tTeam tms, .tItv itv] 0 1 2 3).1.take 4
        = [.tAtt att, .tPly ply, .tTeam tms, .tItv itv] :=
  ⟨rfl, rfl⟩

/-! ## Claim C1 -/

/-- C1 as stated is false on the code: the filter
`intervention_type == "removal"` is case-sensitive, so at this concrete
input the row typed "REMOVAL" is dropped and the defender's aggregate is
(0, 0) instead of including the row. -/
theorem C1_counterexample :
    removalFilter [⟨.kNum 1, "REMOVAL", 5⟩] = []
    ∧ (build_base_dataframe [⟨.kNum 1, 1/10, 50, 100⟩] [] []
        [⟨.kNum 1, "REMOVAL", 5⟩]).1.map
        (fun e => (e.intervention_removal, e.impact_removal)) = [(0, 0)] :=
  ⟨rfl, rfl⟩

/-- C1 amended: the aggregator retains exactly the rows whose
intervention_type is the exact, case-sensitive string "removal"; a row of
any other type string — any other casing of "removal" included — is
excluded and leaves the entire output of `build_base_dataframe`
unchanged. -/
theorem C1_case_sensitive_filter (df : List AttRow) (ply : List PlyRow)
    (tms : List TeamRow) (itv : List ItvRow) (x : ItvRow)
    (hx : x.intervention_type ≠ "removal") :
    (∀ r : ItvRow, r ∈ removalFilter itv ↔ r ∈ itv ∧ r.intervention_type = "removal")
    ∧ build_base_dataframe df ply tms (x :: itv) = build_base_dataframe df ply tms itv := by
  constructor
  · intro r
    simp [removalFilter, List.mem_filter]
  · have hflt : removalFilter (x :: itv) = removalFilter itv := by
      rw [removalFilter, removalFilter, List.filter_cons_of_neg (by simpa using hx)]
    unfold build_base_dataframe
    rw [hflt]

/-- Witness for C1: a "REMOVAL"-typed row is invisible to the pipeline. -/
theorem C1_witness :
    (("REMOVAL" : String) ≠ "removal")
    ∧ build_base_dataframe [] [] [] [⟨Key.kNum 1, "REMOVAL", 5⟩]
        = build_base_dataframe [] [] [] [] :=
  ⟨by decide,
   (C1_case_sensitive_filter [] [] [] [] ⟨Key.kNum 1, "REMOVAL", 5⟩ (by decide)).2⟩

/-! ## Claim C4 -/

/-- C4 as stated is false on the code: with a duplicated player-metadata
key the pipeline neither raises an error nor dedupes — at this concrete
input the single attention row fans out into two enriched rows, one per
matching metadata row. -/
theorem C4_counterexample :
    (build_base_dataframe [⟨.kNum 1, 1/10, 50, 100⟩]
        [⟨.kNum 1, some "X", some "CB", none, none⟩,
         ⟨.kNum 1, some "Y", some "S", none, none⟩]
        [] []).1.length = 2
    ∧ (build_base_dataframe [⟨.kNum 1, 1/10, 50, 100⟩]
        [⟨.kNum 1, some "X", some "CB", none, none⟩,
         ⟨.kNum 1, some "Y", some "S", none, none⟩]
        [] []).1.map (·.display_name) = [some "X", some "Y"] :=
  ⟨rfl, rfl⟩

/-- C4 amended: the pipeline applies no duplicate-key guard at all; a
duplicated metadata key produces a deterministic join fan-out — each
attention row pairs with every matching metadata row in metadata order, so
the player-merge output length is the sum over attention rows of
`max 1 (number of matches)`. -/
theorem C4_deterministic_fanout (df : List AttRow) (ply : List PlyRow) :
    (mergePlayers df ply).length =
      (df.map (fun a => max 1 (ply.filter (fun p => p.nfl_id == a.nfl_id)).length)).sum :=
  leftMerge_length _ _ _ df ply

/-! ## Unique-key forms of the merges -/

theorem mergePlayers_eq_map (df : List AttRow) (ps : List PlyRow)
    (h : (ps.map (·.nfl_id)).Nodup) :
    mergePlayers df ps = df.map (joinPlyRow ps) := by
  have h1 : ∀ a ∈ df, ((ps.filter (fun p => p.nfl_id == a.nfl_id)).length ≤ 1) := by
    intro a _
    refine length_filter_le_one_of_nodup (·.nfl_id) _ ?_ ps h
    intro x y hx hy
    have hx' : x.nfl_id = a.nfl_id := by simpa using hx
    have hy' : y.nfl_id = a.nfl_id := by simpa using hy
    show x.nfl_id = y.nfl_id
    rw [hx', hy']
  unfold mergePlayers
  refine (leftMerge_eq_map df h1).trans (List.map_congr_left ?_)
  intro a _
  unfold joinPlyRow
  cases ps.find? (fun p => p.nfl_id == a.nfl_id) <;> rfl

theorem mergeTeams_eq_map (l : List Row1) (ts : List TeamRow)
    (h : (ts.map (fun t => t.team_abbr.toStr)).Nodup) :
    mergeTeams l ts = l.map (joinTeamRow ts) := by
  have h1 : ∀ a ∈ l,
      ((ts.filter (fun t => a.latest_team == some t.team_abbr.toStr)).length ≤ 1) := by
    intro a _
    refine length_filter_le_one_of_nodup (fun t => t.team_abbr.toStr) _ ?_ ts h
    intro x y hx hy
    have hx' : a.latest_team = some x.team_abbr.toStr := by simpa using hx
    have hy' : a.latest_team = some y.team_abbr.toStr := by simpa using hy
    exact Option.some.inj (hx'.symm.trans hy')
  unfold mergeTeams
  refine (leftMerge_eq_map l h1).trans (List.map_congr_left ?_)
  intro a _
  unfold joinTeamRow
  cases ts.find? (fun t => a.latest_team == some t.team_abbr.toStr) <;> rfl

theorem mergeStats_eq_map (l : List Row3) (itv : List ItvRow) :
    mergeStats l (removalStats itv) = l.map (joinStatRow (removalStats itv)) := by
  have h1 : ∀ a ∈ l,
      (((removalStats itv).filter (fun s => s.defender_nfl_id == a.nfl_id)).length ≤ 1) := by
    intro a _
    refine length_filter_le_one_of_nodup (·.defender_nfl_id) _ ?_ (removalStats itv) ?_
    · intro x y hx hy
      have hx' : x.defender_nfl_id = a.nfl_id := by simpa using hx
      have hy' : y.defender_nfl_id = a.nfl_id := by simpa using hy
      show x.defender_nfl_id = y.defender_nfl_id
      rw [hx', hy']
    · rw [removalStats_keys]
      exact groupKeys_nodup itv
  unfold mergeStats
  refine (leftMerge_eq_map l h1).trans (List.map_congr_left ?_)
  intro a _
  unfold joinStatRow
  cases (removalStats itv).find? (fun s => s.defender_nfl_id == a.nfl_id) <;> rfl

theorem totalStats_keys (itv : List ItvRow) :
    (totalStats itv).map (·.1) = groupKeys itv := by
  rw [totalStats, List.map_map]
  exact List.map_id _

theorem totalStats_find? (itv : List ItvRow) (k : Key) :
    (totalStats itv).find? (fun s => s.1 == k) =
      (if k ∈ itv.map (·.defender_nfl_id) then
        some (k, (itv.filter (fun r => r.defender_nfl_id == k)).length) else none) := by
  have h1 : (totalStats itv).find? (fun s => s.1 == k) =
      Option.map (fun k' : Key =>
          (k', (itv.filter (fun r => r.defender_nfl_id == k')).length))
        ((groupKeys itv).find? (fun k' => k' == k)) := by
    rw [totalStats, find?_map_general]
  rw [h1, find?_beq]
  by_cases hk : k ∈ itv.map (·.defender_nfl_id)
  · rw [if_pos ((mem_groupKeys itv k).2 hk), if_pos hk]; rfl
  · rw [if_neg (fun hm => hk ((mem_groupKeys itv k).1 hm)), if_neg hk]; rfl

theorem mergeTot_eq_map (l : List EnrRow) (itv : List ItvRow) :
    leftMerge (fun (a : EnrRow) (s : Key × ℕ) => s.1 == a.nfl_id)
      (fun a => Row5.mk a none) (fun a s => Row5.mk a (some s.2)) l (totalStats itv)
    = l.map (joinTotRow (totalStats itv)) := by
  have h1 : ∀ a ∈ l,
      (((totalStats itv).filter (fun s => s.1 == a.nfl_id)).length ≤ 1) := by
    intro a _
    refine length_filter_le_one_of_nodup Prod.fst _ ?_ (totalStats itv) ?_
    · intro x y hx hy
      have hx' : x.1 = a.nfl_id := by simpa using hx
      have hy' : y.1 = a.nfl_id := by simpa using hy
      show x.1 = y.1
      rw [hx', hy']
    · rw [totalStats_keys]
      exact groupKeys_nodup itv
  refine (leftMerge_eq_map l h1).trans (List.map_congr_left ?_)
  intro a _
  unfold joinTotRow
  cases (totalStats itv).find? (fun s => s.1 == a.nfl_id) <;> rfl

/-! ## Field preservation through the join stages -/

theorem joinPlyRow_nfl_id (ps : List PlyRow) (a : AttRow) :
    (joinPlyRow ps a).nfl_id = a.nfl_id := by
  unfold joinPlyRow
  cases ps.find? (fun p => p.nfl_id == a.nfl_id) <;> rfl

theorem joinTeamRow_nfl_id (ts : List TeamRow) (r : Row1) :
    (joinTeamRow ts r).nfl_id = r.nfl_id := by
  unfold joinTeamRow
  cases ts.find? (fun t => r.latest_team == some t.team_abbr.toStr) <;> rfl

theorem joinStatRow_nfl_id (st : List StatRow) (r : Row3) :
    (joinStatRow st r).nfl_id = r.nfl_id := by
  unfold joinStatRow
  cases st.find? (fun s => s.defender_nfl_id == r.nfl_id) <;> rfl

theorem joinTotRow_core (tot : List (Key × ℕ)) (a : EnrRow) :
    (joinTotRow tot a).core = a := by
  unfold joinTotRow
  cases tot.find? (fun s => s.1 == a.nfl_id) <;> rfl

theorem fillnaStats_nfl_id (r : Row4) : (fillnaStats r).nfl_id = r.nfl_id := rfl

theorem addPositionGroup_nfl_id (r : Row2) : (addPositionGroup r).nfl_id = r.nfl_id := rfl

theorem buildRow_nfl_id (ply : List PlyRow) (tms : List TeamRow) (itv : List ItvRow)
    (a : AttRow) : (buildRow ply tms itv a).nfl_id = Key.kStr a.nfl_id.toStr := by
  unfold buildRow
  rw [fillnaStats_nfl_id, joinStatRow_nfl_id, addPositionGroup_nfl_id,
    joinTeamRow_nfl_id, joinPlyRow_nfl_id]
  rfl

theorem kStr_injective : Function.Injective Key.kStr := by
  intro a b h
  injection h

/-- `build_base_dataframe` acts row by row when the metadata keys (after
the string casts) are unique. -/
theorem build_eq_map (df : List AttRow) (ply : List PlyRow) (tms : List TeamRow)
    (itv : List ItvRow)
    (hp : (ply.map (fun p => p.nfl_id.toStr)).Nodup)
    (ht : (tms.map (fun t => t.team_abbr.toStr)).Nodup) :
    (build_base_dataframe df ply tms itv).1 = df.map (buildRow ply tms itv) := by
  have hp1 : ((ply.map castPly).map (·.nfl_id)).Nodup := by
    rw [List.map_map]
    rw [show ((fun p : PlyRow => p.nfl_id) ∘ castPly)
        = (Key.kStr ∘ fun p : PlyRow => p.nfl_id.toStr) from rfl]
    rw [← List.map_map]
    exact hp.map kStr_injective
  have ht1 : ((tms.map castTeam).map (fun t => t.team_abbr.toStr)).Nodup := by
    rw [List.map_map]
    exact ht
  show (mergeStats
      ((mergeTeams (mergePlayers (df.map castAtt) (ply.map castPly))
        (tms.map castTeam)).map addPositionGroup)
      (removalStats ((removalFilter itv).map castItv))).map fillnaStats
    = df.map (buildRow ply tms itv)
  rw [mergePlayers_eq_map _ _ hp1, mergeTeams_eq_map _ _ ht1, mergeStats_eq_map]
  simp only [List.map_map]
  rfl


/-! ## Null propagation through the join stages -/

theorem joinPlyRow_of_find?_none (ps : List PlyRow) (a : AttRow)
    (h : ps.find? (fun p => p.nfl_id == a.nfl_id) = none) :
    joinPlyRow ps a = ⟨a.nfl_id, a.avg_attention, a.high_attention_pct, a.play_count,
      none, none, none, none⟩ := by
  unfold joinPlyRow
  rw [h]

theorem joinTeamRow_of_find?_none (ts : List TeamRow) (r : Row1)
    (h : ts.find? (fun t => r.latest_team == some t.team_abbr.toStr) = none) :
    joinTeamRow ts r = ⟨r.nfl_id, r.avg_attention, r.high_attention_pct, r.play_count,
      r.display_name, r.position, r.latest_team, r.headshot,
      none, none, none, none, none⟩ := by
  unfold joinTeamRow
  rw [h]

theorem joinTeamRow_of_latest_none (ts : List TeamRow) (r : Row1)
    (h : r.latest_team = none) :
    joinTeamRow ts r = ⟨r.nfl_id, r.avg_attention, r.high_attention_pct, r.play_count,
      r.display_name, r.position, r.latest_team, r.headshot,
      none, none, none, none, none⟩ := by
  refine joinTeamRow_of_find?_none ts r ?_
  rw [List.find?_eq_none]
  intro t _
  rw [h]
  simp

theorem joinTeamRow_latest (ts : List TeamRow) (r : Row1) :
    (joinTeamRow ts r).latest_team = r.latest_team := by
  unfold joinTeamRow
  cases ts.find? (fun t => r.latest_team == some t.team_abbr.toStr) <;> rfl

theorem joinStatRow_keeps (st : List StatRow) (r : Row3) :
    (joinStatRow st r).display_name = r.display_name
    ∧ (joinStatRow st r).position = r.position
    ∧ (joinStatRow st r).latest_team = r.latest_team
    ∧ (joinStatRow st r).headshot = r.headshot
    ∧ (joinStatRow st r).team_abbr = r.team_abbr
    ∧ (joinStatRow st r).team_color = r.team_color
    ∧ (joinStatRow st r).team_color2 = r.team_color2
    ∧ (joinStatRow st r).team_logo_squared = r.team_logo_squared
    ∧ (joinStatRow st r).team_wordmark = r.team_wordmark := by
  unfold joinStatRow
  cases st.find? (fun s => s.defender_nfl_id == r.nfl_id) <;>
    exact ⟨rfl, rfl, rfl, rfl, rfl, rfl, rfl, rfl, rfl⟩

/-! ## Claim C5 -/

/-- C5: with unique (cast) metadata and team keys, the enriched table has
exactly one row per attention row, in order: the enriched key column is the
cast attention key column (so attention rows are never dropped or
duplicated, and with unique attention ids there is exactly one enriched row
per distinct player identifier); attention rows without a player-metadata
match keep null name/position/team/headshot fields (and hence null
team-join fields), and rows whose team abbreviation matches no team row
keep null team fields. -/
theorem C5_left_join_invariant (df : List AttRow) (ply : List PlyRow)
    (tms : List TeamRow) (itv : List ItvRow)
    (hp : (ply.map (fun p => p.nfl_id.toStr)).Nodup)
    (ht : (tms.map (fun t => t.team_abbr.toStr)).Nodup) :
    (build_base_dataframe df ply tms itv).1.map (·.nfl_id)
        = df.map (fun a => Key.kStr a.nfl_id.toStr)
    ∧ (build_base_dataframe df ply tms itv).1.length = df.length
    ∧ ((df.map (fun a => a.nfl_id.toStr)).Nodup →
        ((build_base_dataframe df ply tms itv).1.map (·.nfl_id)).Nodup)
    ∧ ∀ e ∈ (build_base_dataframe df ply tms itv).1,
        ((∀ p ∈ ply, p.nfl_id.toStr ≠ e.nfl_id.toStr) →
          e.display_name = none ∧ e.position = none ∧ e.latest_team = none
            ∧ e.headshot = none ∧ e.team_abbr = none ∧ e.team_color = none
            ∧ e.team_color2 = none)
        ∧ ((∀ t ∈ tms, some t.team_abbr.toStr ≠ e.latest_team) →
          e.team_abbr = none ∧ e.team_color = none ∧ e.team_color2 = none
            ∧ e.team_logo_squared = none ∧ e.team_wordmark = none) := by
  have hmap := build_eq_map df ply tms itv hp ht
  have hids : (build_base_dataframe df ply tms itv).1.map (·.nfl_id)
      = df.map (fun a => Key.kStr a.nfl_id.toStr) := by
    rw [hmap, List.map_map]
    exact List.map_congr_left (fun a _ => buildRow_nfl_id ply tms itv a)
  refine ⟨hids, ?_, ?_, ?_⟩
  · rw [hmap, List.length_map]
  · intro hd
    rw [hids]
    rw [show (fun a : AttRow => Key.kStr a.nfl_id.toStr)
        = (Key.kStr ∘ fun a : AttRow => a.nfl_id.toStr) from rfl, ← List.map_map]
    exact hd.map kStr_injective
  · intro e he
    rw [hmap] at he
    obtain ⟨a, _, rfl⟩ := List.mem_map.1 he
    have K := joinStatRow_keeps (removalStats ((removalFilter itv).map castItv))
      (addPositionGroup (joinTeamRow (tms.map castTeam)
        (joinPlyRow (ply.map castPly) (castAtt a))))
    constructor
    · intro hnop
      have hfind : (ply.map castPly).find? (fun p => p.nfl_id == (castAtt a).nfl_id)
          = none := by
        rw [List.find?_eq_none]
        intro p hpmem
        obtain ⟨q, hq, rfl⟩ := List.mem_map.1 hpmem
        have hne := hnop q hq
        rw [buildRow_nfl_id] at hne
        intro hcontra
        have h' : (castPly q).nfl_id = (castAtt a).nfl_id := eq_of_beq hcontra
        exact hne (by simpa [castPly, castAtt, Key.toStr] using congrArg Key.toStr h')
      have h1 := joinPlyRow_of_find?_none (ply.map castPly) (castAtt a) hfind
      have h2 := joinTeamRow_of_latest_none (tms.map castTeam)
        (joinPlyRow (ply.map castPly) (castAtt a)) (by rw [h1])
      have hda : (joinTeamRow (tms.map castTeam)
          (joinPlyRow (ply.map castPly) (castAtt a))).display_name = none := by
        rw [h2, h1]
      have hpo : (joinTeamRow (tms.map castTeam)
          (joinPlyRow (ply.map castPly) (castAtt a))).position = none := by
        rw [h2, h1]
      have hlt : (joinTeamRow (tms.map castTeam)
          (joinPlyRow (ply.map castPly) (castAtt a))).latest_team = none := by
        rw [h2, h1]
      have hhs : (joinTeamRow (tms.map castTeam)
          (joinPlyRow (ply.map castPly) (castAtt a))).headshot = none := by
        rw [h2, h1]
      have hta : (joinTeamRow (tms.map castTeam)
          (joinPlyRow (ply.map castPly) (castAtt a))).team_abbr = none := by
        rw [h2]
      have htc : (joinTeamRow (tms.map castTeam)
          (joinPlyRow (ply.map castPly) (castAtt a))).team_color = none := by
        rw [h2]
      have htc2 : (joinTeamRow (tms.map castTeam)
          (joinPlyRow (ply.map castPly) (castAtt a))).team_color2 = none := by
        rw [h2]
      exact ⟨K.1.trans hda, K.2.1.trans hpo, K.2.2.1.trans hlt, K.2.2.2.1.trans hhs,
        K.2.2.2.2.1.trans hta, K.2.2.2.2.2.1.trans htc, K.2.2.2.2.2.2.1.trans htc2⟩
    · intro hnot
      have hel : (buildRow ply tms itv a).latest_team
          = (joinPlyRow (ply.map castPly) (castAtt a)).latest_team :=
        (K.2.2.1).trans (joinTeamRow_latest _ _)
      have hfind2 : (tms.map castTeam).find?
          (fun t => (joinPlyRow (ply.map castPly) (castAtt a)).latest_team
            == some t.team_abbr.toStr) = none := by
        rw [List.find?_eq_none]
        intro t htmem
        obtain ⟨q, hq, rfl⟩ := List.mem_map.1 htmem
        have hne := hnot q hq
        rw [hel] at hne
        intro hcontra
        have h' : (joinPlyRow (ply.map castPly) (castAtt a)).latest_team
            = some (castTeam q).team_abbr.toStr := eq_of_beq hcontra
        exact hne (by simpa [castTeam, Key.toStr] using h'.symm)
      have h2 := joinTeamRow_of_find?_none (tms.map castTeam)
        (joinPlyRow (ply.map castPly) (castAtt a)) hfind2
      have hta : (joinTeamRow (tms.map castTeam)
          (joinPlyRow (ply.map castPly) (castAtt a))).team_abbr = none := by
        rw [h2]
      have htc : (joinTeamRow (tms.map castTeam)
          (joinPlyRow (ply.map castPly) (castAtt a))).team_color = none := by
        rw [h2]
      have htc2 : (joinTeamRow (tms.map castTeam)
          (joinPlyRow (ply.map castPly) (castAtt a))).team_color2 = none := by
        rw [h2]
      have hlg : (joinTeamRow (tms.map castTeam)
          (joinPlyRow (ply.map castPly) (castAtt a))).team_logo_squared = none := by
        rw [h2]
      have hwm : (joinTeamRow (tms.map castTeam)
          (joinPlyRow (ply.map castPly) (castAtt a))).team_wordmark = none := by
        rw [h2]
      exact ⟨K.2.2.2.2.1.trans hta, K.2.2.2.2.2.1.trans htc,
        K.2.2.2.2.2.2.1.trans htc2, K.2.2.2.2.2.2.2.1.trans hlg,
        K.2.2.2.2.2.2.2.2.trans hwm⟩

/-- Witness for C5 at a concrete input: one attention row, empty metadata
tables. -/
theorem C5_witness :
    (build_base_dataframe [⟨.kNum 7, 0, 0, 0⟩] [] [] []).1.map (·.nfl_id)
      = [Key.kStr "7"] := by
  have h := C5_left_join_invariant [⟨.kNum 7, 0, 0, 0⟩] [] [] []
    (by simp) (by simp)
  rw [h.1]
  rfl


/-! ## Claim C6 -/

theorem joinStatRow_find?_some (st : List StatRow) (r : Row3) (s : StatRow)
    (h : st.find? (fun s => s.defender_nfl_id == r.nfl_id) = some s) :
    joinStatRow st r = ⟨r.nfl_id, r.avg_attention, r.high_attention_pct, r.play_count,
      r.display_name, r.position, r.latest_team, r.headshot,
      r.team_abbr, r.team_color, r.team_color2, r.team_logo_squared, r.team_wordmark,
      r.position_group, some s.intervention_removal, some s.impact_removal⟩ := by
  unfold joinStatRow
  rw [h]

theorem joinStatRow_find?_none (st : List StatRow) (r : Row3)
    (h : st.find? (fun s => s.defender_nfl_id == r.nfl_id) = none) :
    joinStatRow st r = ⟨r.nfl_id, r.avg_attention, r.high_attention_pct, r.play_count,
      r.display_name, r.position, r.latest_team, r.headshot,
      r.team_abbr, r.team_color, r.team_color2, r.team_logo_squared, r.team_wordmark,
      r.position_group, none, none⟩ := by
  unfold joinStatRow
  rw [h]

theorem getD_zero_mem (l : List α) (d : α) (h : l ≠ []) : l.getD 0 d ∈ l := by
  cases l with
  | nil => exact absurd rfl h
  | cons a t => exact List.mem_cons_self a t

theorem filter_ne_nil_iff_mem (l : List ItvRow) (k : Key) :
    l.filter (fun r => r.defender_nfl_id == k) ≠ [] ↔ k ∈ l.map (·.defender_nfl_id) := by
  constructor
  · intro h
    obtain ⟨x, hx⟩ := List.exists_mem_of_ne_nil _ h
    rcases List.mem_filter.1 hx with ⟨hmem, hpred⟩
    exact List.mem_map.2 ⟨x, hmem, eq_of_beq hpred⟩
  · intro h
    obtain ⟨x, hx, hfx⟩ := List.mem_map.1 h
    exact List.ne_nil_of_mem (List.mem_filter.2 ⟨hx, by simp [hfx]⟩)

/-- The enriched table, with the removal-stats merge written row by row
(this merge always has unique right keys), for any metadata tables. -/
theorem build_fst_eq (df : List AttRow) (ply : List PlyRow) (tms : List TeamRow)
    (itv : List ItvRow) :
    (build_base_dataframe df ply tms itv).1
      = ((mergeTeams (mergePlayers (df.map castAtt) (ply.map castPly))
          (tms.map castTeam)).map addPositionGroup).map
        (fun r => fillnaStats
          (joinStatRow (removalStats ((removalFilter itv).map castItv)) r)) := by
  show (mergeStats
      ((mergeTeams (mergePlayers (df.map castAtt) (ply.map castPly))
        (tms.map castTeam)).map addPositionGroup)
      (removalStats ((removalFilter itv).map castItv))).map fillnaStats = _
  rw [mergeStats_eq_map, List.map_map]
  rfl

/-- C6: for every row of the enriched table, a player with zero matching
removal-type intervention rows gets `intervention_removal = 0` and
`impact_removal = 0` exactly (the `fillna(0)` defaults — not null); a
player with at least one matching row gets the exact count of its removal
rows and the arithmetic mean of their impact scores. -/
theorem C6_intervention_defaults (df : List AttRow) (ply : List PlyRow)
    (tms : List TeamRow) (itv : List ItvRow) (e : EnrRow)
    (he : e ∈ (build_base_dataframe df ply tms itv).1) :
    (((removalFilter itv).map castItv).filter
        (fun r => r.defender_nfl_id == e.nfl_id) = [] →
      e.intervention_removal = 0 ∧ e.impact_removal = 0)
    ∧ (((removalFilter itv).map castItv).filter
        (fun r => r.defender_nfl_id == e.nfl_id) ≠ [] →
      e.intervention_removal = (((removalFilter itv).map castItv).filter
          (fun r => r.defender_nfl_id == e.nfl_id)).length
        ∧ e.impact_removal = mean ((((removalFilter itv).map castItv).filter
            (fun r => r.defender_nfl_id == e.nfl_id)).map (·.impact_score))) := by
  rw [build_fst_eq] at he
  obtain ⟨r, _, rfl⟩ := List.mem_map.1 he
  rw [fillnaStats_nfl_id, joinStatRow_nfl_id]
  by_cases hk : r.nfl_id ∈ ((removalFilter itv).map castItv).map (·.defender_nfl_id)
  · have hf := removalStats_find? ((removalFilter itv).map castItv) r.nfl_id
    rw [if_pos hk] at hf
    have hj := joinStatRow_find?_some (removalStats ((removalFilter itv).map castItv)) r _ hf
    constructor
    · intro h0
      exact absurd h0 ((filter_ne_nil_iff_mem _ _).2 hk)
    · intro _
      rw [hj]
      exact ⟨rfl, rfl⟩
  · have hf := removalStats_find? ((removalFilter itv).map castItv) r.nfl_id
    rw [if_neg hk] at hf
    have hj := joinStatRow_find?_none (removalStats ((removalFilter itv).map castItv)) r hf
    constructor
    · intro _
      rw [hj]
      exact ⟨rfl, rfl⟩
    · intro hne
      exact absurd ((filter_ne_nil_iff_mem _ _).1 hne) hk

/-- Witness for C6: two removal rows with impact scores 4 and 2 give
count 2 and mean 3; the player is the table head. -/
theorem C6_witness :
    ((build_base_dataframe [⟨.kNum 1, 0, 0, 0⟩] [] []
        [⟨.kNum 1, "removal", 4⟩, ⟨.kNum 1, "removal", 2⟩]).1.getD 0
      default).intervention_removal = 2
    ∧ ((build_base_dataframe [⟨.kNum 1, 0, 0, 0⟩] [] []
        [⟨.kNum 1, "removal", 4⟩, ⟨.kNum 1, "removal", 2⟩]).1.getD 0
      default).impact_removal = 3 := by
  have h := (C6_intervention_defaults [⟨.kNum 1, 0, 0, 0⟩] [] []
    [⟨.kNum 1, "removal", 4⟩, ⟨.kNum 1, "removal", 2⟩]
    ((build_base_dataframe [⟨.kNum 1, 0, 0, 0⟩] [] []
      [⟨.kNum 1, "removal", 4⟩, ⟨.kNum 1, "removal", 2⟩]).1.getD 0 default)
    (getD_zero_mem _ _ (by decide))).2 (by decide)
  refine ⟨h.1.trans (by decide), h.2.trans ?_⟩
  show mean [(4 : ℚ), 2] = 3
  unfold mean
  norm_num

/-! ## Claim C10 -/

theorem joinTotRow_find?_some (tot : List (Key × ℕ)) (a : EnrRow) (s : Key × ℕ)
    (h : tot.find? (fun s => s.1 == a.nfl_id) = some s) :
    joinTotRow tot a = ⟨a, some s.2⟩ := by
  unfold joinTotRow
  rw [h]

theorem joinTotRow_find?_none (tot : List (Key × ℕ)) (a : EnrRow)
    (h : tot.find? (fun s => s.1 == a.nfl_id) = none) :
    joinTotRow tot a = ⟨a, none⟩ := by
  unfold joinTotRow
  rw [h]

/-- The streamlit enriched table written row by row (its last two merges
always have unique right keys), for any metadata tables. -/
theorem create_eq (df : List AttRow) (ply : List PlyRow) (tms : List TeamRow)
    (itv : List ItvRow) :
    create_player_enriched df ply tms itv
      = ((mergeTeams (mergePlayers (df.map castAtt) (ply.map castPly))
          (tms.map castTeam)).map addPositionGroup).map
        (fun r =>
          (fun r5 : Row5 => EnrSRow.mk r5.core (r5.total_interventions.getD 0))
            (joinTotRow (totalStats ((removalFilter itv).map castItv))
              (fillnaStats
                (joinStatRow (removalStats ((removalFilter itv).map castItv)) r)))) := by
  show (leftMerge (fun (a : EnrRow) (s : Key × ℕ) => s.1 == a.nfl_id)
      (fun a => Row5.mk a none) (fun a s => Row5.mk a (some s.2))
      ((mergeStats
        ((mergeTeams (mergePlayers (df.map castAtt) (ply.map castPly))
          (tms.map castTeam)).map addPositionGroup)
        (removalStats ((removalFilter itv).map castItv))).map fillnaStats)
      (totalStats ((removalFilter itv).map castItv))).map
      (fun r => EnrSRow.mk r.core (r.total_interventions.getD 0)) = _
  rw [mergeTot_eq_map, mergeStats_eq_map, List.map_map, List.map_map, List.map_map]
  rfl

/-- C10: in the streamlit variant, every enriched row's
`total_interventions` equals its `intervention_removal`: both aggregates
are computed from the intervention table after it has already been
filtered to removal-type rows, so the "total" never counts freeze,
slowdown or misdirection rows. -/
theorem C10_total_equals_removal (df : List AttRow) (ply : List PlyRow)
    (tms : List TeamRow) (itv : List ItvRow) (e : EnrSRow)
    (he : e ∈ create_player_enriched df ply tms itv) :
    e.total_interventions = e.core.intervention_removal := by
  rw [create_eq] at he
  obtain ⟨r, _, rfl⟩ := List.mem_map.1 he
  have hid : (fillnaStats
      (joinStatRow (removalStats ((removalFilter itv).map castItv)) r)).nfl_id
      = r.nfl_id := by
    rw [fillnaStats_nfl_id, joinStatRow_nfl_id]
  by_cases hk : r.nfl_id ∈ ((removalFilter itv).map castItv).map (·.defender_nfl_id)
  · have hft := totalStats_find? ((removalFilter itv).map castItv) r.nfl_id
    rw [if_pos hk] at hft
    have hfs := removalStats_find? ((removalFilter itv).map castItv) r.nfl_id
    rw [if_pos hk] at hfs
    have hft' : (totalStats ((removalFilter itv).map castItv)).find?
        (fun s => s.1 == (fillnaStats
          (joinStatRow (removalStats ((removalFilter itv).map castItv)) r)).nfl_id)
        = some (r.nfl_id, (((removalFilter itv).map castItv).filter
            (fun x => x.defender_nfl_id == r.nfl_id)).length) := by
      rw [hid]
      exact hft
    have hjt := joinTotRow_find?_some _ _ _ hft'
    have hjs := joinStatRow_find?_some
      (removalStats ((removalFilter itv).map castItv)) r _ hfs
    show ((joinTotRow (totalStats ((removalFilter itv).map castItv))
        (fillnaStats (joinStatRow (removalStats ((removalFilter itv).map castItv))
          r))).total_interventions).getD 0
      = ((joinTotRow (totalStats ((removalFilter itv).map castItv))
        (fillnaStats (joinStatRow (removalStats ((removalFilter itv).map castItv))
          r))).core).intervention_removal
    rw [hjt, hjs]
    rfl
  · have hft := totalStats_find? ((removalFilter itv).map castItv) r.nfl_id
    rw [if_neg hk] at hft
    have hfs := removalStats_find? ((removalFilter itv).map castItv) r.nfl_id
    rw [if_neg hk] at hfs
    have hft' : (totalStats ((removalFilter itv).map castItv)).find?
        (fun s => s.1 == (fillnaStats
          (joinStatRow (removalStats ((removalFilter itv).map castItv)) r)).nfl_id)
        = none := by
      rw [hid]
      exact hft
    have hjt := joinTotRow_find?_none _ _ hft'
    have hjs := joinStatRow_find?_none
      (removalStats ((removalFilter itv).map castItv)) r hfs
    show ((joinTotRow (totalStats ((removalFilter itv).map castItv))
        (fillnaStats (joinStatRow (removalStats ((removalFilter itv).map castItv))
          r))).total_interventions).getD 0
      = ((joinTotRow (totalStats ((removalFilter itv).map castItv))
        (fillnaStats (joinStatRow (removalStats ((removalFilter itv).map castItv))
          r))).core).intervention_removal
    rw [hjt, hjs]
    rfl

/-- Witness for C10 at a concrete input with one removal and one freeze
row: total equals the removal count on the table head. -/
theorem C10_witness :
    ((create_player_enriched [⟨.kNum 1, 0, 0, 0⟩] [] []
        [⟨.kNum 1, "removal", 4⟩, ⟨.kNum 1, "freeze", 9⟩]).getD 0
      default).total_interventions
    = ((create_player_enriched [⟨.kNum 1, 0, 0, 0⟩] [] []
        [⟨.kNum 1, "removal", 4⟩, ⟨.kNum 1, "freeze", 9⟩]).getD 0
      default).core.intervention_removal :=
  C10_total_equals_removal [⟨.kNum 1, 0, 0, 0⟩] [] []
    [⟨.kNum 1, "removal", 4⟩, ⟨.kNum 1, "freeze", 9⟩]
    ((create_player_enriched [⟨.kNum 1, 0, 0, 0⟩] [] []
      [⟨.kNum 1, "removal", 4⟩, ⟨.kNum 1, "freeze", 9⟩]).getD 0 default)
    (getD_zero_mem _ _ (by decide))


/-! ## Claim C8 -/

theorem playsFilterA_nil (t : ℕ) : playsFilterA t [] = [] := by
  unfold playsFilterA
  split <;> rfl

theorem playsFilterS_nil (t : ℕ) : playsFilterS t [] = [] := by
  unfold playsFilterS
  split <;> rfl

theorem sortValuesBy_nil [Inhabited K] (lt : K → K → Bool) (key : R → Option K)
    (ascending : Bool) : sortValuesBy lt key ascending ([] : List R) = [] := by
  cases ascending <;> rfl

theorem sortStepBy_nil [Inhabited R] (proj : R → EnrRow) (k : SortKey) :
    sortStepBy proj k ([] : List R) = [] := by
  cases k <;> rfl

/-- C8: with a positive play-volume threshold, both variants compute the
cutoff as `threshold/100` times the maximum play count of the *currently
filtered subset* and retain exactly the rows at or above it; when that
subset is empty, the filter stage leaves it empty (app.py skips the stage,
the streamlit variant falls back to `max_plays = 1` and filters no rows),
no error is raised, and the whole view is a well-defined empty
RankedView. -/
theorem C8_play_volume_cutoff (plays : ℕ) (hp : 0 < plays) :
    (∀ v : List EnrRow, v ≠ [] →
      playsFilterA plays v = v.filter (fun r =>
        decide ((plays : ℚ) / 100 * (maxPlays id v : ℚ) ≤ (r.play_count : ℚ))))
    ∧ playsFilterA plays [] = []
    ∧ (∀ v : List EnrSRow, v ≠ [] →
      playsFilterS plays v = v.filter (fun r =>
        decide ((plays : ℚ) / 100 * (maxPlays EnrSRow.core v : ℚ)
          ≤ (r.core.play_count : ℚ))))
    ∧ playsFilterS plays [] = []
    ∧ (∀ (base : List EnrRow) (pv : String) (sk : SortKey),
        posFilter id pv base = [] → dfView base pv plays sk = [])
    ∧ (∀ (full : List EnrSRow) (p : SParams), p.plays_threshold = plays →
        posFilter EnrSRow.core p.selected_position
            (teamFilter p.team_filter (searchFilter p.search full)) = [] →
          filteredDf full p = []) := by
  refine ⟨?_, playsFilterA_nil plays, ?_, playsFilterS_nil plays, ?_, ?_⟩
  · intro v hv
    unfold playsFilterA
    rw [if_pos ⟨hp, List.length_pos.2 hv⟩]
  · intro v hv
    unfold playsFilterS
    rw [if_pos hp]
    simp only [List.length_pos.2 hv, if_true]
  · intro base pv sk hempty
    show (sortStepBy id sk (playsFilterA plays (posFilter id pv base))).enum.map
      (fun p => (p.2, p.1 + 1)) = []
    rw [hempty, playsFilterA_nil, sortStepBy_nil]
    rfl
  · intro full p hpt hempty
    show (sortStepBy EnrSRow.core p.sort_column
      (playsFilterS p.plays_threshold
        (posFilter EnrSRow.core p.selected_position
          (teamFilter p.team_filter (searchFilter p.search full))))).enum.map
      (fun q => (q.2, q.1 + 1)) = []
    rw [hempty, playsFilterS_nil, sortStepBy_nil]
    rfl

/-- Witness for C8: with threshold 50 and an empty position-filtered
subset, both view builders return the well-defined empty view. -/
theorem C8_witness :
    dfView [] "LB" 50 SortKey.play_count = []
    ∧ filteredDf [] ⟨"", "All Teams", "LB", 50, SortKey.play_count, 1⟩ = [] := by
  have h := C8_play_volume_cutoff 50 (by decide)
  exact ⟨h.2.2.2.2.1 [] "LB" SortKey.play_count (by decide),
    h.2.2.2.2.2 [] ⟨"", "All Teams", "LB", 50, SortKey.play_count, 1⟩ rfl (by decide)⟩


/-! ## Claim C2 -/

/-- C2: every rendered row's category label is computed against the full
enriched table's medians — High-Attention iff `avg_attention` is `≥` the
full-table median of `avg_attention`, High-Impact iff `impact_removal` is
`≥` the full-table median of `impact_removal` — so the same row gets the
same label under every choice of search/team/position/play-volume filter
parameters, and with no filters active every filter stage is the
identity. -/
theorem C2_category_full_table_medians (full : List EnrSRow) (p : SParams)
    (r : EnrSRow) (rk : ℕ) (c : Category)
    (h : (r, rk, c) ∈ displayedLabels full p) :
    c = get_player_category r.core.avg_attention r.core.impact_removal full
    ∧ (c = .highHigh ↔ (median (full.map (·.core.avg_attention)) ≤ r.core.avg_attention
        ∧ median (full.map (·.core.impact_removal)) ≤ r.core.impact_removal))
    ∧ (c = .lowHigh ↔ (¬median (full.map (·.core.avg_attention)) ≤ r.core.avg_attention
        ∧ median (full.map (·.core.impact_removal)) ≤ r.core.impact_removal))
    ∧ (c = .highLow ↔ (median (full.map (·.core.avg_attention)) ≤ r.core.avg_attention
        ∧ ¬median (full.map (·.core.impact_removal)) ≤ r.core.impact_removal))
    ∧ (c = .lowLow ↔ (¬median (full.map (·.core.avg_attention)) ≤ r.core.avg_attention
        ∧ ¬median (full.map (·.core.impact_removal)) ≤ r.core.impact_removal))
    ∧ (∀ (p' : SParams) (rk' : ℕ) (c' : Category),
        (r, rk', c') ∈ displayedLabels full p' → c' = c)
    ∧ (searchFilter "" full = full ∧ teamFilter "All Teams" full = full
        ∧ posFilter EnrSRow.core "all" full = full ∧ playsFilterS 0 full = full) := by
  have hc : c = get_player_category r.core.avg_attention r.core.impact_removal full := by
    unfold displayedLabels at h
    obtain ⟨q, _, heq⟩ := List.mem_map.1 h
    have h1 := congrArg Prod.fst heq
    have h3 := congrArg (fun x : EnrSRow × ℕ × Category => x.2.2) heq
    simp only at h1 h3
    exact h3.symm.trans (by rw [h1])
  subst hc
  refine ⟨rfl, ?_, ?_, ?_, ?_, ?_, ?_, ?_, ?_, ?_⟩
  · by_cases ha : median (full.map (·.core.avg_attention)) ≤ r.core.avg_attention <;>
      by_cases hi : median (full.map (·.core.impact_removal)) ≤ r.core.impact_removal <;>
      simp [get_player_category, ha, hi]
  · by_cases ha : median (full.map (·.core.avg_attention)) ≤ r.core.avg_attention <;>
      by_cases hi : median (full.map (·.core.impact_removal)) ≤ r.core.impact_removal <;>
      simp [get_player_category, ha, hi]
  · by_cases ha : median (full.map (·.core.avg_attention)) ≤ r.core.avg_attention <;>
      by_cases hi : median (full.map (·.core.impact_removal)) ≤ r.core.impact_removal <;>
      simp [get_player_category, ha, hi]
  · by_cases ha : median (full.map (·.core.avg_attention)) ≤ r.core.avg_attention <;>
      by_cases hi : median (full.map (·.core.impact_removal)) ≤ r.core.impact_removal <;>
      simp [get_player_category, ha, hi]
  · intro p' rk' c' h'
    unfold displayedLabels at h'
    obtain ⟨q, _, heq⟩ := List.mem_map.1 h'
    have h1 := congrArg Prod.fst heq
    have h3 := congrArg (fun x : EnrSRow × ℕ × Category => x.2.2) heq
    simp only at h1 h3
    exact h3.symm.trans (by rw [h1])
  · simp [searchFilter]
  · simp [teamFilter]
  · simp [posFilter]
  · simp [playsFilterS]

/-- Witness for C2: a one-row table whose row sits at both medians is
labelled High-Attention, High-Impact. -/
theorem C2_witness :
    Category.highHigh = get_player_category
      (⟨⟨Key.kStr "1", 3, 0, 5, none, none, none, none, none, none, none, none,
        none, "Other", 0, 0⟩, 0⟩ : EnrSRow).core.avg_attention
      (⟨⟨Key.kStr "1", 3, 0, 5, none, none, none, none, none, none, none, none,
        none, "Other", 0, 0⟩, 0⟩ : EnrSRow).core.impact_removal
      [⟨⟨Key.kStr "1", 3, 0, 5, none, none, none, none, none, none, none, none,
        none, "Other", 0, 0⟩, 0⟩] :=
  (C2_category_full_table_medians
    [⟨⟨Key.kStr "1", 3, 0, 5, none, none, none, none, none, none, none, none,
      none, "Other", 0, 0⟩, 0⟩]
    ⟨"", "All Teams", "all", 0, SortKey.play_count, 1⟩
    ⟨⟨Key.kStr "1", 3, 0, 5, none, none, none, none, none, none, none, none,
      none, "Other", 0, 0⟩, 0⟩
    1 Category.highHigh (by decide)).1


/-! ## Claim C3: counterexample -/

/-- C3's stability conjunct is false on the code: `sort_values` uses the
pandas default quicksort (numpy introsort), which partitions any segment of
more than 16 elements and swaps equal elements while doing so.  At this
concrete input — 17 rows all with `play_count = 5`, sorted by
`play_count` — the view's row order is a nontrivial permutation of the
input order, so rows with equal sort keys do not keep their relative
order. -/
theorem C3_counterexample :
    (dfView ((List.range 17).map (fun i =>
        (⟨Key.kNum i, 0, 0, 5, none, none, none, none, none, none, none, none,
          none, "Other", 0, 0⟩ : EnrRow))) "all" 0 SortKey.play_count).map
        (fun q => q.1.nfl_id)
      = [Key.kNum 0, Key.kNum 9, Key.kNum 15, Key.kNum 14, Key.kNum 13, Key.kNum 12,
        Key.kNum 11, Key.kNum 10, Key.kNum 8, Key.kNum 1, Key.kNum 7, Key.kNum 6,
        Key.kNum 5, Key.kNum 4, Key.kNum 3, Key.kNum 2, Key.kNum 16]
    ∧ ((List.range 17).map (fun i =>
        (⟨Key.kNum i, 0, 0, 5, none, none, none, none, none, none, none, none,
          none, "Other", 0, 0⟩ : EnrRow))).map (fun r => r.play_count)
      = List.replicate 17 5
    ∧ [Key.kNum 0, Key.kNum 9, Key.kNum 15, Key.kNum 14, Key.kNum 13, Key.kNum 12,
        Key.kNum 11, Key.kNum 10, Key.kNum 8, Key.kNum 1, Key.kNum 7, Key.kNum 6,
        Key.kNum 5, Key.kNum 4, Key.kNum 3, Key.kNum 2, Key.kNum 16]
      ≠ (List.range 17).map Key.kNum := by
  exact ⟨by decide, by decide, by decide⟩


/-! ## Sorting: numpy insertion-phase reduction and stable-sort equivalence -/

theorem mem_insertLe (le : α → α → Bool) (a : α) (l : List α) (x : α) :
    x ∈ insertLe le a l ↔ x = a ∨ x ∈ l := by
  rw [(insertLe_perm le a l).mem_iff, List.mem_cons]

theorem insertLe_sorted (le : α → α → Bool)
    (htot : ∀ a b, le a b = true ∨ le b a = true)
    (htrans : ∀ a b c, le a b = true → le b c = true → le a c = true)
    (a : α) (l : List α) (hs : l.Sorted (fun x y => le x y = true)) :
    (insertLe le a l).Sorted (fun x y => le x y = true) := by
  induction l with
  | nil => simp [insertLe]
  | cons b l ih =>
    rw [List.sorted_cons] at hs
    by_cases h : le a b = true
    · rw [insertLe, if_pos h, List.sorted_cons]
      refine ⟨?_, List.sorted_cons.2 hs⟩
      intro c hc
      rcases List.mem_cons.1 hc with rfl | hc
      · exact h
      · exact htrans a b c h (hs.1 c hc)
    · rw [insertLe, if_neg h, List.sorted_cons]
      refine ⟨?_, ih hs.2⟩
      intro c hc
      rcases (mem_insertLe le a l c).1 hc with rfl | hc
      · rcases htot c b with h1 | h1
        · exact absurd h1 h
        · exact h1
      · exact hs.1 c hc

theorem insSortLe_sorted (le : α → α → Bool)
    (htot : ∀ a b, le a b = true ∨ le b a = true)
    (htrans : ∀ a b c, le a b = true → le b c = true → le a c = true)
    (l : List α) : (insSortLe le l).Sorted (fun x y => le x y = true) := by
  induction l with
  | nil => simp [insSortLe]
  | cons a l ih => exact insertLe_sorted le htot htrans a _ ih

theorem nIdxLe_none_none [LinearOrder K] {keys : List (Option K)} (asc : Bool)
    {i j : ℕ} (hi : keys.getD i none = none) (hj : keys.getD j none = none) :
    nIdxLe keys asc i j = true ↔ i ≤ j := by
  simp only [nIdxLe, hi, hj, decide_eq_true_eq]

theorem nIdxLe_none_some [LinearOrder K] {keys : List (Option K)} (asc : Bool)
    {i j : ℕ} {y : K} (hi : keys.getD i none = none)
    (hj : keys.getD j none = some y) : nIdxLe keys asc i j = false := by
  simp only [nIdxLe, hi, hj]

theorem nIdxLe_some_none [LinearOrder K] {keys : List (Option K)} (asc : Bool)
    {i j : ℕ} {x : K} (hi : keys.getD i none = some x)
    (hj : keys.getD j none = none) : nIdxLe keys asc i j = true := by
  simp only [nIdxLe, hi, hj]

theorem nIdxLe_some_some [LinearOrder K] {keys : List (Option K)} (asc : Bool)
    {i j : ℕ} {x y : K} (hi : keys.getD i none = some x)
    (hj : keys.getD j none = some y) :
    nIdxLe keys asc i j = true ↔
      (if x = y then i ≤ j else if asc = true then x < y else y < x) := by
  simp only [nIdxLe, hi, hj]
  rcases eq_or_ne x y with rfl | hxy
  · rw [if_pos rfl, if_pos rfl, decide_eq_true_eq]
  · rw [if_neg hxy, if_neg hxy]
    by_cases ha : asc = true
    · rw [if_pos ha, if_pos ha, decide_eq_true_eq]
    · rw [if_neg ha, if_neg ha, decide_eq_true_eq]

theorem nIdxLe_total [LinearOrder K] (keys : List (Option K)) (asc : Bool)
    (i j : ℕ) : nIdxLe keys asc i j = true ∨ nIdxLe keys asc j i = true := by
  cases hi : keys.getD i none <;> cases hj : keys.getD j none
  · rw [nIdxLe_none_none asc hi hj, nIdxLe_none_none asc hj hi]; omega
  · rw [nIdxLe_some_none asc (by assumption) hi]; right; rfl
  · rw [nIdxLe_some_none asc hi (by assumption)]; left; rfl
  · rename_i x y
    rw [nIdxLe_some_some asc hi hj, nIdxLe_some_some asc hj hi]
    rcases eq_or_ne x y with rfl | hxy
    · rw [if_pos rfl, if_pos rfl]; omega
    · rw [if_neg hxy, if_neg (Ne.symm hxy)]
      by_cases ha : asc = true
      · rw [if_pos ha, if_pos ha]; exact hxy.lt_or_lt
      · rw [if_neg ha, if_neg ha]; exact Or.symm hxy.lt_or_lt

theorem nIdxLe_trans [LinearOrder K] (keys : List (Option K)) (asc : Bool)
    (i j k : ℕ) (h1 : nIdxLe keys asc i j = true) (h2 : nIdxLe keys asc j k = true) :
    nIdxLe keys asc i k = true := by
  cases hi : keys.getD i none <;> cases hj : keys.getD j none <;>
    cases hk : keys.getD k none
  · rw [nIdxLe_none_none asc hi hj] at h1
    rw [nIdxLe_none_none asc hj hk] at h2
    rw [nIdxLe_none_none asc hi hk]; omega
  · rw [nIdxLe_none_some asc hj (by assumption)] at h2; exact absurd h2 (by simp)
  · rw [nIdxLe_none_some asc hi (by assumption)] at h1; exact absurd h1 (by simp)
  · rw [nIdxLe_none_some asc hi (by assumption)] at h1; exact absurd h1 (by simp)
  · exact nIdxLe_some_none asc hi hk
  · rw [nIdxLe_none_some asc hj (by assumption)] at h2; exact absurd h2 (by simp)
  · exact nIdxLe_some_none asc hi hk
  · rename_i x y z
    rw [nIdxLe_some_some asc hi hj] at h1
    rw [nIdxLe_some_some asc hj hk] at h2
    rw [nIdxLe_some_some asc hi hk]
    rcases eq_or_ne x y with rfl | hxy <;> rcases eq_or_ne x z with rfl | hxz
    · rw [if_pos rfl] at h1 h2 ⊢; omega
    · rw [if_pos rfl] at h1; rw [if_neg hxz] at h2 ⊢; exact h2
    · rw [if_pos rfl]
      rw [if_neg hxy] at h1
      rcases eq_or_ne y x with rfl | hyx
      · exact absurd rfl hxy
      · rw [if_neg hyx] at h2
        by_cases ha : asc = true <;>
          [rw [if_pos ha] at h1 h2; rw [if_neg ha] at h1 h2]
        · exact absurd (h1.trans h2) (lt_irrefl x)
        · exact absurd (h2.trans h1) (lt_irrefl x)
    · rw [if_neg hxy] at h1; rw [if_neg hxz]
      rcases eq_or_ne y z with rfl | hyz
      · rw [if_pos rfl] at h2; exact h1
      · rw [if_neg hyz] at h2
        by_cases ha : asc = true <;>
          [rw [if_pos ha] at h1 h2 ⊢; rw [if_neg ha] at h1 h2 ⊢]
        · exact h1.trans h2
        · exact h2.trans h1

theorem nIdxLe_antisymm [LinearOrder K] (keys : List (Option K)) (asc : Bool)
    (i j : ℕ) (h1 : nIdxLe keys asc i j = true) (h2 : nIdxLe keys asc j i = true) :
    i = j := by
  cases hi : keys.getD i none <;> cases hj : keys.getD j none
  · rw [nIdxLe_none_none asc hi hj] at h1
    rw [nIdxLe_none_none asc hj hi] at h2; omega
  · rw [nIdxLe_none_some asc hi (by assumption)] at h1; exact absurd h1 (by simp)
  · rw [nIdxLe_none_some asc hj (by assumption)] at h2; exact absurd h2 (by simp)
  · rename_i x y
    rw [nIdxLe_some_some asc hi hj] at h1
    rw [nIdxLe_some_some asc hj hi] at h2
    rcases eq_or_ne x y with rfl | hxy
    · rw [if_pos rfl] at h1 h2; omega
    · rw [if_neg hxy] at h1; rw [if_neg (Ne.symm hxy)] at h2
      by_cases ha : asc = true <;>
        [rw [if_pos ha] at h1 h2; rw [if_neg ha] at h1 h2]
      · exact absurd h2 h1.asymm
      · exact absurd h2 h1.asymm

theorem insIdx_perm [Inhabited K] (lt : K → K → Bool) (v : ℕ → K) (i : ℕ)
    (l : List ℕ) : (insIdx lt v i l).Perm (i :: l) := by
  induction l with
  | nil => exact List.Perm.refl _
  | cons b l ih =>
    by_cases h : lt (v i) (v b)
    · rw [insIdx, if_pos h]
    · rw [insIdx, if_neg h]
      exact (ih.cons b).trans (List.Perm.swap i b l)

theorem mem_insIdx [Inhabited K] (lt : K → K → Bool) (v : ℕ → K) (i : ℕ)
    (l : List ℕ) (x : ℕ) : x ∈ insIdx lt v i l ↔ x = i ∨ x ∈ l := by
  rw [(insIdx_perm lt v i l).mem_iff, List.mem_cons]

theorem insIdx_sorted [LinearOrder K] [Inhabited K] (lt : K → K → Bool)
    (hlt : ∀ a b : K, lt a b = true ↔ a < b) (v : ℕ → K) (i : ℕ)
    (acc : List ℕ) (hb : ∀ j ∈ acc, j < i) (hs : acc.Sorted (argLe v)) :
    (insIdx lt v i acc).Sorted (argLe v) := by
  induction acc with
  | nil => exact List.sorted_singleton i
  | cons b l ih =>
    rw [List.sorted_cons] at hs
    by_cases h : v i < v b
    · rw [insIdx, if_pos ((hlt _ _).2 h), List.sorted_cons]
      refine ⟨?_, List.sorted_cons.2 hs⟩
      intro c hc
      rcases List.mem_cons.1 hc with rfl | hc
      · exact Or.inl h
      · rcases hs.1 c hc with h2 | h2
        · exact Or.inl (h.trans h2)
        · exact Or.inl (h.trans_le h2.1.le)
    · rw [insIdx, if_neg (fun hc => h ((hlt _ _).1 hc)), List.sorted_cons]
      refine ⟨?_, ih (fun j hj => hb j (List.mem_cons_of_mem b hj)) hs.2⟩
      intro c hc
      rcases (mem_insIdx _ v i l c).1 hc with rfl | hc
      · rcases lt_or_eq_of_le (not_lt.1 h) with h2 | h2
        · exact Or.inl h2
        · exact Or.inr ⟨h2, (hb b (List.mem_cons_self b l)).le⟩
      · exact hs.1 c hc

theorem foldl_insIdx_perm [Inhabited K] (lt : K → K → Bool) (v : ℕ → K) :
    ∀ (l acc : List ℕ),
      (l.foldl (fun acc i => insIdx lt v i acc) acc).Perm (acc ++ l)
  | [], acc => by simp
  | i :: l, acc => by
    rw [List.foldl_cons]
    refine (foldl_insIdx_perm lt v l (insIdx lt v i acc)).trans ?_
    refine (List.Perm.append_right l (insIdx_perm lt v i acc)).trans ?_
    exact List.perm_middle.symm

theorem foldl_insIdx_sorted [LinearOrder K] [Inhabited K] (lt : K → K → Bool)
    (hlt : ∀ a b : K, lt a b = true ↔ a < b) (v : ℕ → K) :
    ∀ (m a : ℕ) (acc : List ℕ), (∀ j ∈ acc, j < a) → acc.Sorted (argLe v) →
      ((List.range' a m).foldl
          (fun acc i => insIdx lt v i acc)
          acc).Sorted (argLe v)
  | 0, _, _, _, hs => by simpa using hs
  | m + 1, a, acc, hb, hs => by
    rw [List.range'_succ, List.foldl_cons]
    refine foldl_insIdx_sorted lt hlt v m (a + 1) _ ?_
      (insIdx_sorted lt hlt v a acc hb hs)
    intro j hj
    rcases (mem_insIdx _ v a acc j).1 hj with rfl | hj
    · omega
    · exact (hb j hj).trans (Nat.lt_succ_self a)

theorem npQSort_small [Inhabited K] (lt : K → K → Bool) (v : ℕ → K)
    (fuel : ℕ) (t : Array ℕ) (pl pr : ℕ) (d : ℤ) (h : pr ≤ pl + 15) :
    npQSort lt v (fuel + 1) t pl pr d = (insSegment lt v t pl pr, d) := by
  rw [npQSort, if_pos h]

theorem insSegment_range [Inhabited K] (lt : K → K → Bool) (v : ℕ → K)
    (n : ℕ) (h0 : n ≠ 0) :
    insSegment lt v (Array.range n) 0 (n - 1) =
      ((List.range n).foldl (fun acc i => insIdx lt v i acc) []).toArray := by
  unfold insSegment
  rw [Array.toList_range]
  have h1 : n - 1 + 1 - 0 = n := by omega
  have h2 : n - 1 + 1 = n := by omega
  rw [h1, h2, List.drop_zero, List.take_of_length_le (by simp),
    List.take_zero, List.drop_eq_nil_of_le (by simp)]
  simp

theorem npArgsort_le16 [Inhabited K] (lt : K → K → Bool) (vals : List K)
    (h : vals.length ≤ 16) :
    npArgsort lt vals =
      ((List.range vals.length).foldl
        (fun acc i => insIdx lt (fun j => vals.getD j default) i acc) []) := by
  by_cases h0 : vals.length = 0
  · rw [npArgsort]
    simp only [if_pos h0]
    rw [h0]
    rfl
  · rw [npArgsort]
    simp only [if_neg h0]
    rw [npQSort_small lt _ vals.length _ 0 (vals.length - 1) _ (by omega),
      insSegment_range lt _ vals.length h0, Array.toList_toArray]

theorem map_getD_range (l : List α) (d : α) :
    (List.range l.length).map (fun i => l.getD i d) = l := by
  apply List.ext_getElem?
  intro i
  rw [List.getElem?_map]
  by_cases hi : i < l.length
  · rw [List.getElem?_range hi, List.getElem?_eq_getElem hi]
    exact congrArg some (List.getD_eq_getElem l d hi)
  · rw [List.getElem?_eq_none (by simpa using hi),
      List.getElem?_eq_none (by omega)]
    rfl

theorem npArgsort_perm_le16 [Inhabited K] (lt : K → K → Bool) (vals : List K)
    (h16 : vals.length ≤ 16) :
    (npArgsort lt vals).Perm (List.range vals.length) := by
  rw [npArgsort_le16 lt vals h16]
  simpa using foldl_insIdx_perm lt _ (List.range vals.length) []

theorem npArgsort_sorted_le16 [LinearOrder K] [Inhabited K] (lt : K → K → Bool)
    (hlt : ∀ a b : K, lt a b = true ↔ a < b) (vals : List K)
    (h16 : vals.length ≤ 16) :
    (npArgsort lt vals).Sorted (argLe (fun j => vals.getD j default)) := by
  rw [npArgsort_le16 _ vals h16]
  have h := foldl_insIdx_sorted lt hlt (fun j => vals.getD j default)
    vals.length 0 [] (by simp) (by simp)
  simpa [List.range_eq_range'] using h

theorem argmap_perm [Inhabited K] (lt : K → K → Bool) (nn : List ℕ)
    (vals : List K) (hv : vals.length = nn.length) (h16 : vals.length ≤ 16) :
    ((npArgsort lt vals).map (fun j => nn.getD j 0)).Perm nn := by
  refine ((npArgsort_perm_le16 lt vals h16).map _).trans ?_
  rw [hv, map_getD_range nn 0]

theorem getD_key_some [Inhabited K] (keys : List (Option K)) (nn : List ℕ)
    (hmem : ∀ i ∈ nn, (keys.getD i none).isSome = true) (j : ℕ)
    (hj : j < nn.length) :
    keys.getD (nn.getD j 0) none =
      some ((nn.map (fun i => (keys.getD i none).getD default)).getD j default) := by
  have h1 : nn.getD j 0 = nn[j] := List.getD_eq_getElem nn 0 hj
  obtain ⟨c, hc⟩ := Option.isSome_iff_exists.1 (hmem _ (List.getElem_mem hj))
  have h2 : (nn.map (fun i => (keys.getD i none).getD default)).getD j default = c := by
    rw [List.getD_eq_getElem _ _ (by simpa using hj), List.getElem_map]
    show (keys.getD nn[j] none).getD default = c
    rw [hc]
    rfl
  rw [h1, h2]
  exact hc

theorem pairwise_lt_getD_mono (l : List ℕ) (hp : l.Pairwise (· < ·)) (i j : ℕ)
    (hj : j < l.length) (hij : i ≤ j) : l.getD i 0 ≤ l.getD j 0 := by
  rcases eq_or_lt_of_le hij with rfl | hlt
  · exact le_refl _
  · have h := List.pairwise_iff_getElem.1 hp i j (hlt.trans hj) hj hlt
    rw [List.getD_eq_getElem l 0 (hlt.trans hj), List.getD_eq_getElem l 0 hj]
    exact h.le

theorem pairwise_gt_getD_antimono (l : List ℕ) (hp : l.Pairwise (· > ·)) (i j : ℕ)
    (hj : j < l.length) (hij : i ≤ j) : l.getD j 0 ≤ l.getD i 0 := by
  rcases eq_or_lt_of_le hij with rfl | hlt
  · exact le_refl _
  · have h := List.pairwise_iff_getElem.1 hp i j (hlt.trans hj) hj hlt
    rw [List.getD_eq_getElem l 0 (hlt.trans hj), List.getD_eq_getElem l 0 hj]
    exact h.le

theorem nonNan_nan_perm [Inhabited K] (keys : List (Option K)) :
    ((List.range keys.length).filter (fun i => (keys.getD i none).isSome) ++
      (List.range keys.length).filter (fun i => (keys.getD i none).isNone)).Perm
      (List.range keys.length) := by
  have h := List.filter_append_perm (fun i => (keys.getD i none).isSome)
    (List.range keys.length)
  have heq : (List.range keys.length).filter (fun i => !(keys.getD i none).isSome)
      = (List.range keys.length).filter (fun i => (keys.getD i none).isNone) := by
    apply List.filter_congr
    intro i _
    cases keys.getD i none <;> rfl
  rwa [heq] at h

theorem nargsort_perm_range [Inhabited K] (lt : K → K → Bool)
    (keys : List (Option K)) (asc : Bool) (h16 : keys.length ≤ 16) :
    (nargsort lt keys asc).Perm (List.range keys.length) := by
  cases asc
  · have E : nargsort lt keys false =
        ((npArgsort lt
            ((((List.range keys.length).filter
                (fun i => (keys.getD i none).isSome)).reverse).map
              (fun i => (keys.getD i none).getD default))).map
          (fun j => (((List.range keys.length).filter
              (fun i => (keys.getD i none).isSome)).reverse).getD j 0)).reverse ++
        (List.range keys.length).filter (fun i => (keys.getD i none).isNone) := rfl
    rw [E]
    have hlen : ((((List.range keys.length).filter
        (fun i => (keys.getD i none).isSome)).reverse).map
          (fun i => (keys.getD i none).getD default)).length ≤ 16 := by
      simp only [List.length_map, List.length_reverse]
      exact le_trans (List.length_filter_le _ _) (by simpa using h16)
    refine (List.Perm.append_right _ ?_).trans (nonNan_nan_perm keys)
    refine (List.reverse_perm _).trans ?_
    refine (argmap_perm lt _ _ (by simp) hlen).trans ?_
    exact List.reverse_perm _
  · have E : nargsort lt keys true =
        ((npArgsort lt
            (((List.range keys.length).filter
                (fun i => (keys.getD i none).isSome)).map
              (fun i => (keys.getD i none).getD default))).map
          (fun j => ((List.range keys.length).filter
              (fun i => (keys.getD i none).isSome)).getD j 0)) ++
        (List.range keys.length).filter (fun i => (keys.getD i none).isNone) := rfl
    rw [E]
    have hlen : ((((List.range keys.length).filter
        (fun i => (keys.getD i none).isSome))).map
          (fun i => (keys.getD i none).getD default)).length ≤ 16 := by
      simp only [List.length_map]
      exact le_trans (List.length_filter_le _ _) (by simpa using h16)
    refine (List.Perm.append_right _ ?_).trans (nonNan_nan_perm keys)
    exact argmap_perm lt _ _ (by simp) hlen

theorem nargsort_sorted [LinearOrder K] [Inhabited K] (lt : K → K → Bool)
    (hlt : ∀ a b : K, lt a b = true ↔ a < b) (keys : List (Option K))
    (asc : Bool) (h16 : keys.length ≤ 16) :
    (nargsort lt keys asc).Sorted
      (fun i j => nIdxLe keys asc i j = true) := by
  have hPairNN : ((List.range keys.length).filter
      (fun i => (keys.getD i none).isSome)).Pairwise (· < ·) :=
    (List.pairwise_lt_range keys.length).filter _
  have hmemNN : ∀ i ∈ (List.range keys.length).filter
      (fun i => (keys.getD i none).isSome), (keys.getD i none).isSome = true :=
    fun i hi => (List.mem_filter.1 hi).2
  have hmemNAN : ∀ i ∈ (List.range keys.length).filter
      (fun i => (keys.getD i none).isNone), keys.getD i none = none :=
    fun i hi => Option.isNone_iff_eq_none.1 (List.mem_filter.1 hi).2
  have hPairNAN : ((List.range keys.length).filter
      (fun i => (keys.getD i none).isNone)).Pairwise (· < ·) :=
    (List.pairwise_lt_range keys.length).filter _
  cases asc
  · have E : nargsort lt keys false =
        ((npArgsort lt
            ((((List.range keys.length).filter
                (fun i => (keys.getD i none).isSome)).reverse).map
              (fun i => (keys.getD i none).getD default))).map
          (fun j => (((List.range keys.length).filter
              (fun i => (keys.getD i none).isSome)).reverse).getD j 0)).reverse ++
        (List.range keys.length).filter (fun i => (keys.getD i none).isNone) := rfl
    rw [E]
    set NN := ((List.range keys.length).filter
        (fun i => (keys.getD i none).isSome)).reverse with hNN
    set vals := NN.map (fun i => (keys.getD i none).getD default) with hvals
    have hlen : vals.length ≤ 16 := by
      rw [hvals, hNN]
      simp only [List.length_map, List.length_reverse]
      exact le_trans (List.length_filter_le _ _) (by simpa using h16)
    have hm : vals.length = NN.length := by rw [hvals]; exact List.length_map _ _
    have hmemNN2 : ∀ i ∈ NN, (keys.getD i none).isSome = true := by
      intro i hi
      exact hmemNN i (List.mem_reverse.1 (hNN ▸ hi))
    have hmemlt : ∀ j ∈ npArgsort lt vals,
        j < vals.length := by
      intro j hj
      exact List.mem_range.1 ((npArgsort_perm_le16 _ vals hlen).mem_iff.1 hj)
    refine List.pairwise_append.2 ⟨?_, ?_, ?_⟩
    · rw [List.pairwise_reverse]
      refine List.pairwise_map.2 ?_
      refine (npArgsort_sorted_le16 lt hlt vals hlen).imp_of_mem ?_
      intro a b hain hbin hab
      have ha' : a < NN.length := hm ▸ hmemlt a hain
      have hb' : b < NN.length := hm ▸ hmemlt b hbin
      have hka := getD_key_some keys NN hmemNN2 a ha'
      have hkb := getD_key_some keys NN hmemNN2 b hb'
      rw [← hvals] at hka hkb
      show nIdxLe keys false (NN.getD b 0) (NN.getD a 0) = true
      rw [nIdxLe_some_some false hkb hka]
      rcases hab with hlt | ⟨heq, hle⟩
      · rw [if_neg (ne_of_gt hlt), if_neg (by simp)]
        exact hlt
      · rw [if_pos heq.symm]
        have hgt : NN.Pairwise (· > ·) := by
          rw [hNN, List.pairwise_reverse]
          exact hPairNN.imp (fun h => h)
        exact pairwise_gt_getD_antimono NN hgt a b hb' hle
    · refine hPairNAN.imp_of_mem ?_
      intro a b hain hbin hab
      show nIdxLe keys false a b = true
      rw [nIdxLe_none_none false (hmemNAN a hain) (hmemNAN b hbin)]
      exact hab.le
    · intro a hain b hbin
      have ha : a ∈ NN := by
        have h1 := (List.reverse_perm _).mem_iff.1 hain
        exact (argmap_perm _ NN vals hm hlen).mem_iff.1 h1
      obtain ⟨x, hx⟩ := Option.isSome_iff_exists.1 (hmemNN2 a ha)
      exact nIdxLe_some_none false hx (hmemNAN b hbin)
  · have E : nargsort lt keys true =
        ((npArgsort lt
            (((List.range keys.length).filter
                (fun i => (keys.getD i none).isSome)).map
              (fun i => (keys.getD i none).getD default))).map
          (fun j => ((List.range keys.length).filter
              (fun i => (keys.getD i none).isSome)).getD j 0)) ++
        (List.range keys.length).filter (fun i => (keys.getD i none).isNone) := rfl
    rw [E]
    set NN := (List.range keys.length).filter
        (fun i => (keys.getD i none).isSome) with hNN
    set vals := NN.map (fun i => (keys.getD i none).getD default) with hvals
    have hlen : vals.length ≤ 16 := by
      rw [hvals, hNN]
      simp only [List.length_map]
      exact le_trans (List.length_filter_le _ _) (by simpa using h16)
    have hm : vals.length = NN.length := by rw [hvals]; exact List.length_map _ _
    have hmemNN2 : ∀ i ∈ NN, (keys.getD i none).isSome = true := by
      intro i hi
      exact hmemNN i (hNN ▸ hi)
    have hmemlt : ∀ j ∈ npArgsort lt vals,
        j < vals.length := by
      intro j hj
      exact List.mem_range.1 ((npArgsort_perm_le16 _ vals hlen).mem_iff.1 hj)
    refine List.pairwise_append.2 ⟨?_, ?_, ?_⟩
    · refine List.pairwise_map.2 ?_
      refine (npArgsort_sorted_le16 lt hlt vals hlen).imp_of_mem ?_
      intro a b hain hbin hab
      have ha' : a < NN.length := hm ▸ hmemlt a hain
      have hb' : b < NN.length := hm ▸ hmemlt b hbin
      have hka := getD_key_some keys NN hmemNN2 a ha'
      have hkb := getD_key_some keys NN hmemNN2 b hb'
      rw [← hvals] at hka hkb
      show nIdxLe keys true (NN.getD a 0) (NN.getD b 0) = true
      rw [nIdxLe_some_some true hka hkb]
      rcases hab with hlt | ⟨heq, hle⟩
      · rw [if_neg (ne_of_lt hlt), if_pos rfl]
        exact hlt
      · rw [if_pos heq]
        have hlt2 : NN.Pairwise (· < ·) := hNN ▸ hPairNN
        exact pairwise_lt_getD_mono NN hlt2 a b hb' hle
    · refine hPairNAN.imp_of_mem ?_
      intro a b hain hbin hab
      show nIdxLe keys true a b = true
      rw [nIdxLe_none_none true (hmemNAN a hain) (hmemNAN b hbin)]
      exact hab.le
    · intro a hain b hbin
      have ha : a ∈ NN := (argmap_perm _ NN vals hm hlen).mem_iff.1 hain
      obtain ⟨x, hx⟩ := Option.isSome_iff_exists.1 (hmemNN2 a ha)
      exact nIdxLe_some_none true hx (hmemNAN b hbin)

theorem nargsort_eq_stable [LinearOrder K] [Inhabited K] (lt : K → K → Bool)
    (hlt : ∀ a b : K, lt a b = true ↔ a < b) (keys : List (Option K))
    (asc : Bool) (h16 : keys.length ≤ 16) :
    nargsort lt keys asc
      = insSortLe (nIdxLe keys asc) (List.range keys.length) := by
  haveI : IsAntisymm ℕ (fun i j => nIdxLe keys asc i j = true) :=
    ⟨nIdxLe_antisymm keys asc⟩
  refine List.eq_of_perm_of_sorted
    (r := fun i j => nIdxLe keys asc i j = true) ?_ ?_ ?_
  · exact (nargsort_perm_range _ keys asc h16).trans
      (insSortLe_perm (nIdxLe keys asc) (List.range keys.length)).symm
  · exact nargsort_sorted lt hlt keys asc h16
  · exact insSortLe_sorted (nIdxLe keys asc) (nIdxLe_total keys asc)
      (nIdxLe_trans keys asc) (List.range keys.length)

theorem insertLe_map (le : α → α → Bool) (le2 : β → β → Bool) (f : α → β)
    (a : α) (l : List α) (h : ∀ b ∈ l, le2 (f a) (f b) = le a b) :
    insertLe le2 (f a) (l.map f) = (insertLe le a l).map f := by
  induction l with
  | nil => rfl
  | cons b l ih =>
    rw [List.map_cons, insertLe, insertLe, h b (List.mem_cons_self b l)]
    by_cases hab : le a b
    · rw [if_pos hab, if_pos hab, List.map_cons, List.map_cons]
    · rw [if_neg hab, if_neg hab, List.map_cons,
        ih (fun c hc => h c (List.mem_cons_of_mem b hc))]

theorem insSortLe_map (le : α → α → Bool) (le2 : β → β → Bool) (f : α → β)
    (l : List α) (h : ∀ a ∈ l, ∀ b ∈ l, le2 (f a) (f b) = le a b) :
    insSortLe le2 (l.map f) = (insSortLe le l).map f := by
  induction l with
  | nil => rfl
  | cons a l ih =>
    rw [List.map_cons, insSortLe, insSortLe,
      ih (fun x hx => fun y hy =>
        h x (List.mem_cons_of_mem a hx) y (List.mem_cons_of_mem a hy))]
    refine insertLe_map le le2 f a (insSortLe le l) ?_
    intro b hb
    exact h a (List.mem_cons_self a l) b
      (List.mem_cons_of_mem a ((mem_insSortLe le l b).1 hb))

theorem enum_eq_map_range [Inhabited R] (rows : List R) :
    rows.enum = (List.range rows.length).map
      (fun i => (i, rows.getD i default)) := by
  apply List.ext_getElem?
  intro i
  rw [List.getElem?_enum, List.getElem?_map]
  by_cases hi : i < rows.length
  · rw [List.getElem?_range hi, List.getElem?_eq_getElem hi]
    show some (i, rows[i]) = some (i, rows.getD i default)
    rw [List.getD_eq_getElem rows default hi]
  · rw [List.getElem?_eq_none (by omega), List.getElem?_eq_none (by simpa using hi)]
    rfl

theorem filterMap_get_eq_map [Inhabited R] (rows : List R) (l : List ℕ)
    (h : ∀ i ∈ l, i < rows.length) :
    l.filterMap (fun i => rows.get? i) =
      l.map (fun i => rows.getD i default) := by
  induction l with
  | nil => rfl
  | cons i l ih =>
    have hi : i < rows.length := h i (List.mem_cons_self i l)
    rw [List.filterMap_cons, List.map_cons]
    rw [List.get?_eq_getElem?, List.getElem?_eq_getElem hi]
    rw [ih (fun j hj => h j (List.mem_cons_of_mem i hj))]
    rw [List.getD_eq_getElem rows default hi]

theorem sortValuesBy_eq_stable [LinearOrder K] [Inhabited K] [Inhabited R]
    (lt : K → K → Bool) (hlt : ∀ a b : K, lt a b = true ↔ a < b)
    (key : R → Option K) (asc : Bool) (rows : List R)
    (h16 : rows.length ≤ 16) :
    sortValuesBy lt key asc rows = stableSortBy key asc rows := by
  rw [sortValuesBy, stableSortBy]
  have hk : (rows.map key).length = rows.length := List.length_map rows key
  rw [nargsort_eq_stable lt hlt (rows.map key) asc (by rw [hk]; exact h16), hk]
  have hmem : ∀ i ∈ insSortLe (nIdxLe (rows.map key) asc) (List.range rows.length),
      i < rows.length := by
    intro i hi
    exact List.mem_range.1 ((mem_insSortLe _ _ i).1 hi)
  rw [filterMap_get_eq_map rows _ hmem]
  rw [enum_eq_map_range rows]
  rw [insSortLe_map (nIdxLe (rows.map key) asc) (stableLe key asc)
    (fun i => (i, rows.getD i default)) (List.range rows.length) ?_]
  · rw [List.map_map]
    rfl
  · intro a ha b hb
    have ha' : a < rows.length := List.mem_range.1 ha
    have hb' : b < rows.length := List.mem_range.1 hb
    have hga : (rows.map key).getD a none = key (rows.getD a default) := by
      rw [List.getD_eq_getElem _ none (by simpa using ha'), List.getElem_map,
        List.getD_eq_getElem rows default ha']
    have hgb : (rows.map key).getD b none = key (rows.getD b default) := by
      rw [List.getD_eq_getElem _ none (by simpa using hb'), List.getElem_map,
        List.getD_eq_getElem rows default hb']
    rw [stableLe, nIdxLe, hga, hgb]

/-! ## Claim C3: amended sort-direction and small-table stability theorem -/

/-- C3 (amended): the Filter/Sort View Builder sorts ascending exactly for
`display_name` and descending for the four numeric keys, with null keys
last; and whenever the (filtered) table has at most 16 rows — the regime in
which numpy introsort runs its insertion sort — the produced order is
exactly the stable sort by the chosen key, so rows with equal sort keys
keep their original relative order.  Stated for the app.py view rows, the
streamlit rows, and the full `df_view` filter/sort/rank stage. -/
theorem C3_sort_direction_stability :
    (∀ (rows : List EnrRow) (k : SortKey), rows.length ≤ 16 →
        sortStepBy id k rows = stableSortStep id k rows) ∧
    (∀ (rows : List EnrSRow) (k : SortKey), rows.length ≤ 16 →
        sortStepBy EnrSRow.core k rows = stableSortStep EnrSRow.core k rows) ∧
    (∀ (base : List EnrRow) (pv : String) (plays : ℕ) (k : SortKey),
        (playsFilterA plays (posFilter id pv base)).length ≤ 16 →
        dfView base pv plays k =
          (stableSortStep id k (playsFilterA plays (posFilter id pv base))).enum.map
            (fun q => (q.2, q.1 + 1))) := by
  have h1 : ∀ (rows : List EnrRow) (k : SortKey), rows.length ≤ 16 →
      sortStepBy id k rows = stableSortStep id k rows := by
    intro rows k h
    cases k <;> simp only [sortStepBy, stableSortStep] <;>
      exact sortValuesBy_eq_stable _ (fun a b => by simp) _ _ rows h
  refine ⟨h1, ?_, ?_⟩
  · intro rows k h
    cases k <;> simp only [sortStepBy, stableSortStep] <;>
      exact sortValuesBy_eq_stable _ (fun a b => by simp) _ _ rows h
  · intro base pv plays k h
    show (sortStepBy id k (playsFilterA plays (posFilter id pv base))).enum.map
        (fun q => (q.2, q.1 + 1)) = _
    rw [h1 _ k h]

/-- Witness for C3 (amended) at a concrete three-row table with a
`play_count` tie (5, 9, 5): the hypothesis holds, the theorem applies, and
the sorted view is descending with the tied rows in input order. -/
theorem C3_witness :
    (([⟨Key.kNum 1, 0, 0, 5, none, none, none, none, none, none, none, none,
          none, "Other", 0, 0⟩,
        ⟨Key.kNum 2, 0, 0, 9, none, none, none, none, none, none, none, none,
          none, "Other", 0, 0⟩,
        ⟨Key.kNum 3, 0, 0, 5, none, none, none, none, none, none, none, none,
          none, "Other", 0, 0⟩] : List EnrRow).length ≤ 16 ∧
      sortStepBy id SortKey.play_count
          [⟨Key.kNum 1, 0, 0, 5, none, none, none, none, none, none, none, none,
            none, "Other", 0, 0⟩,
          ⟨Key.kNum 2, 0, 0, 9, none, none, none, none, none, none, none, none,
            none, "Other", 0, 0⟩,
          ⟨Key.kNum 3, 0, 0, 5, none, none, none, none, none, none, none, none,
            none, "Other", 0, 0⟩]
        = stableSortStep id SortKey.play_count
          [⟨Key.kNum 1, 0, 0, 5, none, none, none, none, none, none, none, none,
            none, "Other", 0, 0⟩,
          ⟨Key.kNum 2, 0, 0, 9, none, none, none, none, none, none, none, none,
            none, "Other", 0, 0⟩,
          ⟨Key.kNum 3, 0, 0, 5, none, none, none, none, none, none, none, none,
            none, "Other", 0, 0⟩]) ∧
    (sortStepBy id SortKey.play_count
        [⟨Key.kNum 1, 0, 0, 5, none, none, none, none, none, none, none, none,
          none, "Other", 0, 0⟩,
        ⟨Key.kNum 2, 0, 0, 9, none, none, none, none, none, none, none, none,
          none, "Other", 0, 0⟩,
        ⟨Key.kNum 3, 0, 0, 5, none, none, none, none, none, none, none, none,
          none, "Other", 0, 0⟩]).map (fun r => r.nfl_id)
      = [Key.kNum 2, Key.kNum 1, Key.kNum 3] :=
  ⟨⟨by decide,
    C3_sort_direction_stability.1
      [⟨Key.kNum 1, 0, 0, 5, none, none, none, none, none, none, none, none,
        none, "Other", 0, 0⟩,
      ⟨Key.kNum 2, 0, 0, 9, none, none, none, none, none, none, none, none,
        none, "Other", 0, 0⟩,
      ⟨Key.kNum 3, 0, 0, 5, none, none, none, none, none, none, none, none,
        none, "Other", 0, 0⟩]
      SortKey.play_count (by decide)⟩, by decide⟩

end DAD
